import Mathlib

/-!
Verification of the suziQ storage engine core against its specification.

Each section embeds a component of the Rust source shallowly in Lean:
machine integers become `Nat` with explicit `% 2^w` where wrap-around
matters, page buffers become index functions `Nat → Nat` together with
explicit lengths, and fallible operations return `Except` / `Option`.
Definitions follow the source files named in their doc comments.
-/

namespace SuziQ

/-! ## XIDs (src/concurrency/mod.rs)

`XID` is a `u32`; comparison is wrap-aware via a signed 32-bit delta,
except that the invalid XID 0 compares by raw value.  We model XIDs as
natural numbers below `2^32`. -/

def U32 : Nat := 2 ^ 32

def HALF32 : Nat := 2 ^ 31

/-- `XID::is_invalid` (src/concurrency/mod.rs): XID 0 is invalid. -/
def xidIsInvalid (x : Nat) : Bool := x == 0

/-- `impl Ord for XID` (src/concurrency/mod.rs lines 32-41): when either
side is invalid compare the raw `u32` values, otherwise compare the
wrapping difference reinterpreted as an `i32` against 0. -/
def xidCmp (x y : Nat) : Ordering :=
  if x == 0 || y == 0 then compare x y
  else if (x + U32 - y) % U32 == 0 then Ordering.eq
  else if (x + U32 - y) % U32 < HALF32 then Ordering.gt
  else Ordering.lt

/-- `XID::inc` (src/concurrency/mod.rs lines 66-78): wrapping successor
that retries while the result is 0, hence skips the invalid XID. -/
def xidInc (x : Nat) : Nat :=
  let x1 := (x + 1) % U32
  if x1 == 0 then 1 else x1

/-- `XID::dec` (src/concurrency/mod.rs lines 80-92): wrapping predecessor
that retries while the result is 0. -/
def xidDec (x : Nat) : Nat :=
  let x1 := (x + U32 - 1) % U32
  if x1 == 0 then U32 - 1 else x1

theorem xidInc_lt (x : Nat) : xidInc x < U32 := by
  unfold xidInc
  dsimp only
  split
  · decide
  · exact Nat.mod_lt _ (by decide)

theorem xidDec_lt (x : Nat) : xidDec x < U32 := by
  unfold xidDec
  dsimp only
  split
  · decide
  · exact Nat.mod_lt _ (by decide)

theorem xidCmp_eq_iff (x y : Nat) (hx : x < U32) (hy : y < U32) :
    xidCmp x y = Ordering.eq ↔ x = y := by
  have hU : U32 = 4294967296 := rfl
  unfold xidCmp
  by_cases h0 : (x == 0 || y == 0) = true
  · rw [if_pos h0]
    constructor
    · intro h
      rcases Nat.lt_trichotomy x y with hlt | heq | hgt
      · simp [compare, compareOfLessAndEq, hlt] at h
      · exact heq
      · simp [compare, compareOfLessAndEq, Nat.lt_asymm hgt, Nat.ne_of_gt hgt] at h
    · intro h
      subst h
      simp [compare, compareOfLessAndEq]
  · rw [if_neg h0]
    constructor
    · intro h
      by_cases hd : ((x + U32 - y) % U32 == 0) = true
      · have hd' : (x + U32 - y) % U32 = 0 := by simpa using hd
        rw [hU] at hd' hx hy
        omega
      · rw [if_neg hd] at h
        split at h <;> cases h
    · intro h
      subst h
      have hd : (x + U32 - x) % U32 = 0 := by
        rw [hU]
        omega
      simp [hd]

/-- C7: for XIDs `x`, `y` below `2^32` with neither invalid, exactly one of
`x < y`, `x = y`, `x > y` holds under the wrap-aware order `xidCmp`;
moreover `xidInc (xidDec x) = x` and `xidInc x` is never the invalid
XID 0. -/
theorem xid_order_inc_dec (x y : Nat) (hx : x < U32) (hy : y < U32)
    (hx0 : x ≠ 0) (hy0 : y ≠ 0) :
    ((xidCmp x y = Ordering.lt ∧ x ≠ y ∧ xidCmp x y ≠ Ordering.gt) ∨
     (xidCmp x y ≠ Ordering.lt ∧ x = y ∧ xidCmp x y ≠ Ordering.gt) ∨
     (xidCmp x y ≠ Ordering.lt ∧ x ≠ y ∧ xidCmp x y = Ordering.gt)) ∧
    xidInc (xidDec x) = x ∧ xidInc x ≠ 0 := by
  refine ⟨?_, ?_, ?_⟩
  · have heq := xidCmp_eq_iff x y hx hy
    have htri : ∀ o : Ordering,
        (o = Ordering.lt ∧ o ≠ Ordering.eq ∧ o ≠ Ordering.gt) ∨
        (o ≠ Ordering.lt ∧ o = Ordering.eq ∧ o ≠ Ordering.gt) ∨
        (o ≠ Ordering.lt ∧ o ≠ Ordering.eq ∧ o = Ordering.gt) := by
      intro o
      cases o <;> simp
    rcases htri (xidCmp x y) with ⟨h1, h2, h3⟩ | ⟨h1, h2, h3⟩ | ⟨h1, h2, h3⟩
    · exact Or.inl ⟨h1, fun he => h2 (heq.2 he), h3⟩
    · exact Or.inr (Or.inl ⟨h1, heq.1 h2, h3⟩)
    · exact Or.inr (Or.inr ⟨h1, fun he => h2 (heq.2 he), h3⟩)
  · unfold xidDec xidInc
    by_cases h1 : x = 1
    · subst h1; decide
    · have hx1 : (x + U32 - 1) % U32 = x - 1 := by
        have h2 : x + U32 - 1 = (x - 1) + U32 := by omega
        rw [h2, Nat.add_mod_right, Nat.mod_eq_of_lt (by omega)]
      have hadd : (x - 1 + 1) % U32 = x := by
        rw [Nat.sub_add_cancel (by omega), Nat.mod_eq_of_lt hx]
      have hm1 : ¬(x - 1 = 0) := by omega
      simp only [hx1, beq_iff_eq, hm1, if_false, hadd, hx0]
  · unfold xidInc
    dsimp only
    split
    · decide
    · next h =>
      simpa using h

/-- Witness for C7 at `x = 5`, `y = 3`. -/
theorem xid_order_inc_dec_witness :
    5 < U32 ∧ 3 < U32 ∧ (5 : Nat) ≠ 0 ∧ (3 : Nat) ≠ 0 ∧
    (((xidCmp 5 3 = Ordering.lt ∧ (5 : Nat) ≠ 3 ∧ xidCmp 5 3 ≠ Ordering.gt) ∨
      (xidCmp 5 3 ≠ Ordering.lt ∧ (5 : Nat) = 3 ∧ xidCmp 5 3 ≠ Ordering.gt) ∨
      (xidCmp 5 3 ≠ Ordering.lt ∧ (5 : Nat) ≠ 3 ∧ xidCmp 5 3 = Ordering.gt)) ∧
     xidInc (xidDec 5) = 5 ∧ xidInc 5 ≠ 0) :=
  ⟨by decide, by decide, by decide, by decide,
   xid_order_inc_dec 5 3 (by decide) (by decide) (by decide) (by decide)⟩

/-! ## Transaction status table (src/concurrency/transaction_table.rs)

Two status bits per XID in fixed 4096-byte pages, cached by an LRU of
at most 128 pages over the `txn_log` file.  Page buffers are modelled
as index functions `Nat → Nat` (a byte per index below the page size),
the file as a size plus an index function.  The LRU list keeps the
most-recently-used entry at the head, mirroring the `lru` crate:
`put` inserts at the front (replacing an entry with the same key),
`pop` removes by key, `pop_lru` removes the tail. -/

def TRANSACTION_PAGE_SIZE : Nat := 4096

def TABLE_CACHE_CAPACITY : Nat := 128

def BITS_PER_TXN : Nat := 2

def TXNS_PER_BYTE : Nat := 8 / BITS_PER_TXN

def TXNS_PER_PAGE : Nat := TXNS_PER_BYTE * TRANSACTION_PAGE_SIZE

/-- `transaction_to_page_num` (src/concurrency/transaction_table.rs). -/
def transactionToPageNum (xid : Nat) : Nat := xid / TXNS_PER_PAGE

/-- `transaction_to_page_index` (src/concurrency/transaction_table.rs). -/
def transactionToPageIndex (xid : Nat) : Nat := xid % TXNS_PER_PAGE

inductive TransactionStatus where
  | inProgress
  | committed
  | aborted
  | error
  deriving DecidableEq, Repr

/-- `impl From<u8> for TransactionStatus` (lines 39-48): 0 decodes to
`InProgress`, 1 to `Committed`, 2 to `Aborted`, anything else to `Error`. -/
def statusFromU8 (v : Nat) : TransactionStatus :=
  match v with
  | 0 => TransactionStatus.inProgress
  | 1 => TransactionStatus.committed
  | 2 => TransactionStatus.aborted
  | _ => TransactionStatus.error

def statusToU8 : TransactionStatus → Nat
  | TransactionStatus.inProgress => 0
  | TransactionStatus.committed => 1
  | TransactionStatus.aborted => 2
  | TransactionStatus.error => 3

structure TransactionPage where
  pageNum : Nat
  buffer : Nat → Nat
  dirty : Bool

/-- `TransactionPage::new`: zero-filled buffer, clean. -/
def TransactionPage.mkNew (pageNum : Nat) : TransactionPage :=
  ⟨pageNum, fun _ => 0, false⟩

/-- `TransactionPage::zero_page` (lines 64-68): zero the buffer in place. -/
def TransactionPage.zeroPage (p : TransactionPage) : TransactionPage :=
  { p with buffer := fun _ => 0 }

/-- A byte file: current size and contents (0 beyond the size, matching a
file extended with zeros). -/
structure TFile where
  size : Nat
  data : Nat → Nat

/-- `seek(pos)` followed by `write_all` of `len` bytes taken from `buf`. -/
def TFile.writeAt (f : TFile) (pos : Nat) (buf : Nat → Nat) (len : Nat) : TFile :=
  { size := max f.size (pos + len)
    data := fun i =>
      if pos ≤ i ∧ i < pos + len then buf (i - pos)
      else if i < f.size then f.data i else 0 }

inductive TableError where
  | wrongObjectType
  | dataCorrupted
  | fileAccess
  | invalidArgument
  deriving DecidableEq, Repr

structure TransactionTable where
  lastPageNum : Nat
  file : TFile
  lru : List (Nat × TransactionPage)

/-- `LruCache::put`: insert at the MRU position, replacing any entry with
the same key. -/
def lruPut (l : List (Nat × TransactionPage)) (k : Nat) (v : TransactionPage) :
    List (Nat × TransactionPage) :=
  (k, v) :: l.filter (fun e => e.1 ≠ k)

/-- `LruCache::pop`: remove and return the entry with the given key. -/
def lruPop (l : List (Nat × TransactionPage)) (k : Nat) :
    Option (TransactionPage × List (Nat × TransactionPage)) :=
  match l.find? (fun e => e.1 = k) with
  | none => none
  | some e => some (e.2, l.filter (fun e => e.1 ≠ k))

/-- `LruCache::pop_lru`: remove and return the least-recently-used entry
(the tail of the list). -/
def lruPopLru (l : List (Nat × TransactionPage)) :
    Option ((Nat × TransactionPage) × List (Nat × TransactionPage)) :=
  match l.getLast? with
  | none => none
  | some e => some (e, l.dropLast)

/-- `TransactionTable::write_page` (lines 171-184).  NOTE: translated
faithfully from the source, which seeks to
`page_num * TABLE_CACHE_CAPACITY` (= 128) rather than
`page_num * TRANSACTION_PAGE_SIZE` (= 4096) before writing the
4096-byte page. -/
def TransactionTable.writePage (t : TransactionTable) (pageNum : Nat)
    (page : TransactionPage) : TransactionTable :=
  { t with
    file := t.file.writeAt (pageNum * TABLE_CACHE_CAPACITY) page.buffer TRANSACTION_PAGE_SIZE }

/-- `TransactionTable::read_page` (lines 148-169): seek to
`page_num * TABLE_CACHE_CAPACITY` (the same faithful translation of the
source's multiplier) and `read_exact` one page; short reads are
`DataCorrupted`. -/
def TransactionTable.readPage (t : TransactionTable) (pageNum : Nat)
    (page : TransactionPage) : Except TableError TransactionPage :=
  let pos := pageNum * TABLE_CACHE_CAPACITY
  if pos + TRANSACTION_PAGE_SIZE ≤ t.file.size then
    Except.ok { page with buffer := fun i =>
      if i < TRANSACTION_PAGE_SIZE then t.file.data (pos + i) else 0 }
  else
    Except.error TableError.dataCorrupted

/-- `TransactionTable::put_page` (lines 144-146): cache the page keyed by
its own `page_num` field. -/
def TransactionTable.putPage (t : TransactionTable) (page : TransactionPage) :
    TransactionTable :=
  { t with lru := lruPut t.lru page.pageNum page }

/-- `TransactionTable::alloc_page` (lines 127-142): reuse a fresh page
while the cache is not full, otherwise evict the LRU page, writing it
through first when dirty.  As in the source, the recycled page keeps the
victim's `page_num`. -/
def TransactionTable.allocPage (t : TransactionTable) (pageNum : Nat) :
    Except TableError (TransactionPage × TransactionTable) :=
  if t.lru.length < TABLE_CACHE_CAPACITY then
    Except.ok (TransactionPage.mkNew pageNum, t)
  else
    match lruPopLru t.lru with
    | some ((victimNum, page), rest) =>
        let t := { t with lru := rest }
        if page.dirty then
          let t := t.writePage victimNum page
          Except.ok ({ page with dirty := false }, t)
        else
          Except.ok (page, t)
    | none => Except.error TableError.fileAccess

/-- `TransactionTable::new_page` (lines 186-192): allocate, zero, and
record the new last page number. -/
def TransactionTable.newPage (t : TransactionTable) (pageNum : Nat) :
    Except TableError (TransactionPage × TransactionTable) := do
  let (page, t) ← t.allocPage pageNum
  let page := page.zeroPage
  let t := { t with lastPageNum := pageNum }
  return (page, t)

/-- `TransactionTable::fetch_page` (lines 194-209). -/
def TransactionTable.fetchPage (t : TransactionTable) (pageNum : Nat) :
    Except TableError (TransactionPage × TransactionTable) :=
  if pageNum > t.lastPageNum then
    Except.error TableError.invalidArgument
  else
    match lruPop t.lru pageNum with
    | some (page, rest) => Except.ok (page, { t with lru := rest })
    | none => do
        let (page, t) ← t.allocPage pageNum
        let page ← t.readPage pageNum page
        return (page, t)

/-- `TransactionTable::open` (lines 79-121) for an existing file's
contents (directory handling elided): reject a file whose size is not a
multiple of the page size as torn, and bootstrap page 0 when the file is
empty. -/
def tableOpen (f : TFile) : Except TableError TransactionTable :=
  if f.size % TRANSACTION_PAGE_SIZE ≠ 0 then
    Except.error TableError.dataCorrupted
  else
    let lastPageNum := f.size / TRANSACTION_PAGE_SIZE
    let t : TransactionTable := ⟨lastPageNum, f, []⟩
    if lastPageNum = 0 then do
      let (page, t) ← t.newPage 0
      let t := t.writePage 0 page
      return t.putPage page
    else
      Except.ok t

/-- `TransactionTable::extend` (lines 211-226), table state only (the
`TxnTableZeroPage` WAL append does not touch the table state). -/
def TransactionTable.extend (t : TransactionTable) (xid : Nat) :
    Except TableError TransactionTable :=
  if xidIsInvalid xid || transactionToPageIndex xid ≠ 0 then
    Except.ok t
  else do
    let pageNum := transactionToPageNum xid
    let (page, t) ← t.newPage pageNum
    return t.putPage page

/-- `TransactionTable::get_transaction_status` (lines 228-241). -/
def TransactionTable.getTransactionStatus (t : TransactionTable) (xid : Nat) :
    Except TableError (TransactionStatus × TransactionTable) := do
  let pageNum := transactionToPageNum xid
  let (page, t) ← t.fetchPage pageNum
  let index := transactionToPageIndex xid
  let bytepos := index / TXNS_PER_BYTE
  let byteoff := index % TXNS_PER_BYTE
  let status := statusFromU8 ((page.buffer bytepos >>> (byteoff * BITS_PER_TXN)) &&& 3)
  return (status, t.putPage page)

/-- `TransactionTable::set_transaction_status` (lines 243-257). -/
def TransactionTable.setTransactionStatus (t : TransactionTable) (xid : Nat)
    (status : TransactionStatus) : Except TableError TransactionTable := do
  let pageNum := transactionToPageNum xid
  let (page, t) ← t.fetchPage pageNum
  let index := transactionToPageIndex xid
  let bytepos := index / TXNS_PER_BYTE
  let byteoff := index % TXNS_PER_BYTE
  let b := page.buffer bytepos
  let b := b &&& (255 - (3 <<< (byteoff * BITS_PER_TXN)))
  let b := b ||| (statusToU8 status <<< (byteoff * BITS_PER_TXN))
  let page := { page with
    buffer := fun i => if i = bytepos then b else page.buffer i
    dirty := true }
  return t.putPage page

theorem extend_boundary_eq (t : TransactionTable) (xid0 : Nat) (hx0 : xid0 ≠ 0)
    (hidx : transactionToPageIndex xid0 = 0)
    (hcap : t.lru.length < TABLE_CACHE_CAPACITY) :
    t.extend xid0 = Except.ok
      { lastPageNum := transactionToPageNum xid0
        file := t.file
        lru := lruPut t.lru (transactionToPageNum xid0)
          ((TransactionPage.mkNew (transactionToPageNum xid0)).zeroPage) } := by
  unfold TransactionTable.extend TransactionTable.newPage TransactionTable.allocPage
    TransactionTable.putPage
  simp [xidIsInvalid, hx0, hidx, hcap, TransactionPage.zeroPage, TransactionPage.mkNew]

theorem getStatus_cached_zero (last p : Nat) (f : TFile) (zp : TransactionPage)
    (rest : List (Nat × TransactionPage)) (xid : Nat)
    (hzp : zp.buffer = fun _ => 0)
    (hp : transactionToPageNum xid = p) (hlast : p ≤ last) :
    ∃ t2, TransactionTable.getTransactionStatus ⟨last, f, (p, zp) :: rest⟩ xid =
      Except.ok (TransactionStatus.inProgress, t2) := by
  refine ⟨?_, ?_⟩
  case _ => exact (TransactionTable.mk last f
    (List.filter (fun e => e.1 ≠ p) ((p, zp) :: rest))).putPage zp
  unfold TransactionTable.getTransactionStatus TransactionTable.fetchPage
  rw [hp]
  have hng : ¬ (p > last) := not_lt.mpr hlast
  simp [hng, lruPop, List.find?, hzp, statusFromU8]

/-- C10: an XID whose status was never set but whose page exists reads
back as `InProgress`: `extend` installs a zero-filled page (mirroring the
zero-page redo) and the two-bit value 0 decodes to `InProgress`. -/
theorem table_unset_status_inProgress (t : TransactionTable) (xid xid0 : Nat)
    (hx0 : xid0 ≠ 0) (hidx : transactionToPageIndex xid0 = 0)
    (hcap : t.lru.length < TABLE_CACHE_CAPACITY)
    (hsame : transactionToPageNum xid = transactionToPageNum xid0) :
    ∃ t1 t2, t.extend xid0 = Except.ok t1 ∧
      t1.getTransactionStatus xid =
        Except.ok (TransactionStatus.inProgress, t2) := by
  obtain ⟨t2, h2⟩ := getStatus_cached_zero (transactionToPageNum xid0)
    (transactionToPageNum xid0) t.file
    ((TransactionPage.mkNew (transactionToPageNum xid0)).zeroPage)
    (t.lru.filter (fun e => e.1 ≠ transactionToPageNum xid0)) xid rfl hsame le_rfl
  exact ⟨_, t2, extend_boundary_eq t xid0 hx0 hidx hcap, h2⟩

/-- Witness for C10: a table holding only page 0 in cache, `extend` at
XID 16384 (first XID of page 1), then reading XID 16400 of the same page
yields `InProgress`. -/
theorem table_unset_status_inProgress_witness :
    (16384 : Nat) ≠ 0 ∧ transactionToPageIndex 16384 = 0 ∧
    (TransactionTable.mk 0 ⟨4096, fun _ => 0⟩
      [(0, TransactionPage.mkNew 0)]).lru.length < TABLE_CACHE_CAPACITY ∧
    transactionToPageNum 16400 = transactionToPageNum 16384 ∧
    ∃ t1 t2,
      (TransactionTable.mk 0 ⟨4096, fun _ => 0⟩
        [(0, TransactionPage.mkNew 0)]).extend 16384 = Except.ok t1 ∧
      t1.getTransactionStatus 16400 =
        Except.ok (TransactionStatus.inProgress, t2) :=
  ⟨by decide, by decide, by decide, by decide,
   table_unset_status_inProgress _ 16400 16384 (by decide) (by decide)
     (by decide) (by decide)⟩

/-- A full status-table cache whose least-recently-used entry is page 1,
dirty, holding the committed status bits of XID 16384 (byte 0 = 1). -/
def c5Table : TransactionTable :=
  ⟨200, ⟨4096, fun _ => 0⟩,
   (List.range 127).map (fun i => (i + 2, TransactionPage.mkNew (i + 2))) ++
     [(1, ⟨1, fun i => if i = 0 then 1 else 0, true⟩)]⟩

set_option maxRecDepth 4096 in
/-- C5 (code bug): evicting dirty page 1 writes its 4096 bytes at file
offset `1 * TABLE_CACHE_CAPACITY = 128` instead of
`1 * TRANSACTION_PAGE_SIZE = 4096`.  The status byte of XID 16384 lands
at offset 128 (overlapping page 0), the byte at the correct offset 4096
stays 0, the file size becomes 4224 — not a page multiple — and
reopening the table is rejected as torn (`DataCorrupted`), so the
set/get round trip does not survive eviction plus reopen. -/
theorem table_eviction_write_misplaced :
    ¬ c5Table.lru.length < TABLE_CACHE_CAPACITY ∧
    ∃ pg t', c5Table.allocPage 129 = Except.ok (pg, t') ∧
      t'.file.size = 4224 ∧
      t'.file.data 128 = 1 ∧
      t'.file.data 4096 = 0 ∧
      ¬ t'.file.size % TRANSACTION_PAGE_SIZE = 0 ∧
      tableOpen t'.file = Except.error TableError.dataCorrupted := by
  refine ⟨by decide, _, _, rfl, by decide, by decide, by decide, by decide, rfl⟩

/-! ## Snapshots and MVCC visibility
(src/concurrency/mod.rs, src/concurrency/transaction_manager.rs,
src/am/heap.rs)

`Snapshot.xips` (a `HashSet` in the source) is modelled as a list whose
membership is what matters.  The transaction-status lookup through the
`DB` handle is modelled as a total oracle `Nat → TransactionStatus`. -/

structure Snapshot where
  minXid : Nat
  maxXid : Nat
  xips : List Nat

/-- `Snapshot::is_xid_in_progress` (src/concurrency/mod.rs lines
152-164), with the wrap-aware XID comparisons spelled out. -/
def Snapshot.isXidInProgress (s : Snapshot) (xid : Nat) : Bool :=
  if xidCmp xid s.minXid = Ordering.lt then false
  else if ¬ xidCmp xid s.maxXid = Ordering.lt then true
  else s.xips.contains xid

def MIN_XID_COMMITTED : Nat := 1

def MAX_XID_COMMITTED : Nat := 2

def MIN_XID_INVALID : Nat := 4

def MAX_XID_INVALID : Nat := 8

/-- `bitflags` `contains`: all bits of `bit` are present in `flags`. -/
def flagsContains (flags bit : Nat) : Bool := flags &&& bit == bit

structure HeapTupleHdr where
  flags : Nat
  minXid : Nat
  maxXid : Nat

/-- Tail of `HeapTuple::is_visible` (src/am/heap.rs lines 120-154),
reached once the inserting transaction is known committed; `newFlags`
carries the accumulated hint bits.  Note the source returns the bare
`MAX_XID_INVALID` / `MAX_XID_COMMITTED` bits (without `newFlags`) on the
status-table branches. -/
def isVisibleMax (status : Nat → TransactionStatus) (tup : HeapTupleHdr)
    (snapshot : Snapshot) (currentXid : Nat) (flags newFlags : Nat) : Bool × Nat :=
  if flagsContains flags MAX_XID_INVALID then (true, newFlags)
  else if ¬ flagsContains flags MAX_XID_COMMITTED then
    if tup.maxXid == currentXid then (false, newFlags)
    else if snapshot.isXidInProgress tup.maxXid then (true, newFlags)
    else if ¬ status tup.maxXid = TransactionStatus.committed then
      (true, MAX_XID_INVALID)
    else (false, MAX_XID_COMMITTED)
  else if snapshot.isXidInProgress tup.maxXid then (true, newFlags)
  else (false, newFlags)

/-- `HeapTuple::is_visible` (src/am/heap.rs lines 78-155): returns the
visibility verdict and the new hint bits.  `from_bits_truncate` keeps
only the four known flag bits. -/
def isVisible (status : Nat → TransactionStatus) (tup : HeapTupleHdr)
    (snapshot : Snapshot) (currentXid : Nat) : Bool × Nat :=
  let flags := tup.flags &&& 15
  if ¬ flagsContains flags MIN_XID_COMMITTED then
    if tup.minXid == 0 then (false, 0)
    else if tup.minXid == currentXid then
      if flagsContains flags MAX_XID_INVALID then (true, 0)
      else if ¬ tup.maxXid == currentXid then (false, MAX_XID_INVALID)
      else (false, 0)
    else if snapshot.isXidInProgress tup.minXid then (false, 0)
    else if status tup.minXid = TransactionStatus.committed then
      isVisibleMax status tup snapshot currentXid flags MIN_XID_COMMITTED
    else (false, MIN_XID_INVALID)
  else if snapshot.isXidInProgress tup.minXid then (false, 0)
  else isVisibleMax status tup snapshot currentXid flags 0

/-- C4 (counterexample): a tuple with no flag bits set, `min_xid = 5`
inserted by the checking transaction 5 itself and `max_xid = 0 ≠ 5`.
The claim predicts visible (`MAX_INVALID` set or `max-XID ≠ self`), but
`is_visible` returns invisible (with the `MAX_XID_INVALID` hint). -/
theorem isVisible_own_insert_counterexample :
    ¬ (((isVisible (fun _ => TransactionStatus.inProgress) ⟨0, 5, 0⟩ ⟨1, 6, []⟩ 5).1 = true) ↔
        (flagsContains ((0 : Nat) &&& 15) MAX_XID_INVALID = true ∨ (0 : Nat) ≠ 5)) := by
  decide

/-- C4 (amended): for a tuple whose `MIN_COMMITTED` hint is not set and
whose `min-XID` equals the checking transaction's (valid) XID, the tuple
is visible if and only if its `MAX_INVALID` flag is set; when
`MAX_INVALID` is clear the tuple is invisible whether or not `max-XID`
equals the checking XID. -/
theorem isVisible_own_insert (status : Nat → TransactionStatus)
    (tup : HeapTupleHdr) (snapshot : Snapshot) (currentXid : Nat)
    (hmin : flagsContains (tup.flags &&& 15) MIN_XID_COMMITTED = false)
    (hself : tup.minXid = currentXid) (hvalid : currentXid ≠ 0) :
    (isVisible status tup snapshot currentXid).1 =
      flagsContains (tup.flags &&& 15) MAX_XID_INVALID := by
  unfold isVisible
  have h0 : (tup.minXid == 0) = false := by
    simp [hself, hvalid]
  have hs : (tup.minXid == currentXid) = true := by
    simp [hself]
  simp only [hmin, Bool.false_eq_true, not_false_eq_true, if_true, h0, hs, if_false]
  by_cases hmax : flagsContains (tup.flags &&& 15) MAX_XID_INVALID = true
  · simp [hmax]
  · simp only [Bool.not_eq_true] at hmax
    simp only [hmax, Bool.false_eq_true, if_false]
    by_cases hmx : (tup.maxXid == currentXid) = true <;> simp [hmx]

/-- Witness for C4 (amended) at a freshly inserted own tuple:
`flags = MAX_XID_INVALID`, `min_xid = current = 5`, `max_xid = 0`. -/
theorem isVisible_own_insert_witness :
    flagsContains (((8 : Nat)) &&& 15) MIN_XID_COMMITTED = false ∧
    (5 : Nat) = 5 ∧ (5 : Nat) ≠ 0 ∧
    (isVisible (fun _ => TransactionStatus.inProgress) ⟨8, 5, 0⟩ ⟨1, 6, []⟩ 5).1 =
      flagsContains (((8 : Nat)) &&& 15) MAX_XID_INVALID :=
  ⟨by decide, rfl, by decide,
   isVisible_own_insert (fun _ => TransactionStatus.inProgress) ⟨8, 5, 0⟩ ⟨1, 6, []⟩ 5
     (by decide) rfl (by decide)⟩

/-! ## Snapshot capture (src/concurrency/transaction_manager.rs) -/

structure SnapshotData where
  activeXids : List Nat
  latestCompletedXid : Nat

/-- Loop body of `record_snapshot` (lines 140-158) over the active-XID
set, modelled as a list: skip XIDs at or above `maxXid`, track the
minimum, and collect into `xips` every remaining XID other than the
calling transaction's own.  The `panic!` on an invalid active XID
becomes an error. -/
def snapLoop (maxXid txnXid : Nat) :
    List Nat → Nat → List Nat → Except Unit (Nat × List Nat)
  | [], minXid, xips => Except.ok (minXid, xips)
  | x :: rest, minXid, xips =>
      if x == 0 then Except.error ()
      else if ¬ xidCmp x maxXid = Ordering.lt then snapLoop maxXid txnXid rest minXid xips
      else
        let minXid := if xidCmp x minXid = Ordering.lt then x else minXid
        if x == txnXid then snapLoop maxXid txnXid rest minXid xips
        else snapLoop maxXid txnXid rest minXid (x :: xips)

/-- `TransactionManager::record_snapshot` (lines 133-166):
`max_xid = latest_completed.inc()`, `min_xid` starts at `max_xid`, then
the loop over the active set. -/
def recordSnapshot (sd : SnapshotData) (txnXid : Nat) : Except Unit Snapshot :=
  let maxXid := xidInc sd.latestCompletedXid
  match snapLoop maxXid txnXid sd.activeXids maxXid [] with
  | Except.ok (minXid, xips) => Except.ok ⟨minXid, maxXid, xips⟩
  | Except.error e => Except.error e

theorem xidCmp_lt_char (x y : Nat) (hx0 : x ≠ 0) (hy0 : y ≠ 0) :
    xidCmp x y = Ordering.lt ↔
      ((x + U32 - y) % U32 ≠ 0 ∧ ¬ (x + U32 - y) % U32 < HALF32) := by
  unfold xidCmp
  have h0 : (x == 0 || y == 0) = false := by
    simp [hx0, hy0]
  rw [h0]
  simp only [Bool.false_eq_true, if_false]
  by_cases hd : (x + U32 - y) % U32 = 0
  · simp [hd]
  · simp only [beq_iff_eq, hd, if_false]
    by_cases hh : (x + U32 - y) % U32 < HALF32 <;> simp [hh, hd]

/-- Two XIDs both strictly below `m` in wrap-aware order live on the
half-circle arc ending at `m`; on that arc the order agrees with the
position `(· + U32 - m) % U32`. -/
theorem xidCmp_lt_key (a b m : Nat) (ha : a < U32) (hb : b < U32) (hm : m < U32)
    (ha0 : a ≠ 0) (hb0 : b ≠ 0) (hm0 : m ≠ 0)
    (hA : xidCmp a m = Ordering.lt) (hB : xidCmp b m = Ordering.lt) :
    (xidCmp a b = Ordering.lt ↔ (a + U32 - m) % U32 < (b + U32 - m) % U32) := by
  rw [xidCmp_lt_char a m ha0 hm0] at hA
  rw [xidCmp_lt_char b m hb0 hm0] at hB
  rw [xidCmp_lt_char a b ha0 hb0]
  have hU : U32 = 4294967296 := rfl
  have hH : HALF32 = 2147483648 := rfl
  simp only [hU, hH] at hA hB ha hb hm ⊢
  omega

theorem xidInc_ne_zero (x : Nat) : xidInc x ≠ 0 := by
  unfold xidInc
  dsimp only
  split
  · decide
  · next h =>
    simpa using h

/-- Position of an XID on the half-circle arc ending at `maxXid`, with
`maxXid` itself at the top. -/
def keyM (maxXid z : Nat) : Nat :=
  if z = maxXid then U32 else (z + U32 - maxXid) % U32

theorem xidCmp_lt_irrefl (x y : Nat) (hxy : x = y) : xidCmp x y ≠ Ordering.lt := by
  subst hxy
  by_cases h : x = 0
  · subst h
    simp [xidCmp, compare, compareOfLessAndEq]
  · intro hc
    rw [xidCmp_lt_char x x h h] at hc
    have : (x + U32 - x) % U32 = 0 := by
      have h1 : x + U32 - x = U32 := by omega
      simp [h1]
    exact hc.1 this

theorem xidCmp_lt_ne_max (x maxXid : Nat) (hlt : xidCmp x maxXid = Ordering.lt) :
    x ≠ maxXid := by
  intro h
  exact xidCmp_lt_irrefl x maxXid h hlt

theorem xidCmp_lt_keyM (x m maxXid : Nat)
    (hx0 : x ≠ 0) (hxU : x < U32) (hmax0 : maxXid ≠ 0) (hmaxU : maxXid < U32)
    (hxlt : xidCmp x maxXid = Ordering.lt)
    (hm : m = maxXid ∨ (m ≠ 0 ∧ m < U32 ∧ xidCmp m maxXid = Ordering.lt)) :
    (xidCmp x m = Ordering.lt ↔ keyM maxXid x < keyM maxXid m) := by
  have hxne : x ≠ maxXid := xidCmp_lt_ne_max x maxXid hxlt
  rcases hm with hm | ⟨hm0, hmU, hmlt⟩
  · subst hm
    rw [keyM, keyM, if_neg hxne, if_pos rfl]
    constructor
    · intro _
      exact Nat.mod_lt _ (by decide)
    · intro _
      exact hxlt
  · have hmne : m ≠ maxXid := xidCmp_lt_ne_max m maxXid hmlt
    rw [keyM, keyM, if_neg hxne, if_neg hmne]
    exact xidCmp_lt_key x m maxXid hxU hmU hmaxU hx0 hm0 hmax0 hxlt hmlt

theorem snapLoop_spec (maxXid txnXid : Nat) (hmax0 : maxXid ≠ 0) (hmaxU : maxXid < U32) :
    ∀ (l : List Nat) (min0 : Nat) (xips0 : List Nat),
    (∀ x ∈ l, x ≠ 0 ∧ x < U32) →
    (min0 = maxXid ∨ (min0 ≠ 0 ∧ min0 < U32 ∧ xidCmp min0 maxXid = Ordering.lt)) →
    ∃ minR xipsR, snapLoop maxXid txnXid l min0 xips0 = Except.ok (minR, xipsR) ∧
      (∀ x, x ∈ xipsR ↔
        (x ∈ xips0 ∨ (x ∈ l ∧ xidCmp x maxXid = Ordering.lt ∧ x ≠ txnXid))) ∧
      (minR = min0 ∨ (minR ∈ l ∧ xidCmp minR maxXid = Ordering.lt)) ∧
      (minR = maxXid ∨ (minR ≠ 0 ∧ minR < U32 ∧ xidCmp minR maxXid = Ordering.lt)) ∧
      keyM maxXid minR ≤ keyM maxXid min0 ∧
      (∀ x ∈ l, xidCmp x maxXid = Ordering.lt → keyM maxXid minR ≤ keyM maxXid x) := by
  intro l
  induction l with
  | nil =>
      intro min0 xips0 _ hmin0
      refine ⟨min0, xips0, rfl, ?_, Or.inl rfl, hmin0, le_rfl, ?_⟩
      · intro x
        simp
      · intro x hx
        cases hx
  | cons x rest ih =>
      intro min0 xips0 hl hmin0
      obtain ⟨hx0, hxU⟩ := hl x (List.mem_cons_self x rest)
      have hrest : ∀ y ∈ rest, y ≠ 0 ∧ y < U32 :=
        fun y hy => hl y (List.mem_cons_of_mem x hy)
      rw [snapLoop]
      have hx0' : (x == 0) = false := by simp [hx0]
      rw [hx0']
      simp only [Bool.false_eq_true, if_false]
      by_cases hxmax : xidCmp x maxXid = Ordering.lt
      · rw [if_neg (by simpa using hxmax)]
        set min1 := if xidCmp x min0 = Ordering.lt then x else min0 with hmin1
        have hmin1P : min1 = maxXid ∨
            (min1 ≠ 0 ∧ min1 < U32 ∧ xidCmp min1 maxXid = Ordering.lt) := by
          rw [hmin1]
          split
          · exact Or.inr ⟨hx0, hxU, hxmax⟩
          · exact hmin0
        have hkey1 : keyM maxXid min1 ≤ keyM maxXid min0 := by
          rw [hmin1]
          split
          · next hcond =>
              exact le_of_lt ((xidCmp_lt_keyM x min0 maxXid hx0 hxU hmax0 hmaxU
                hxmax hmin0).1 hcond)
          · exact le_rfl
        have hkeyx : keyM maxXid min1 ≤ keyM maxXid x := by
          rw [hmin1]
          split
          · exact le_rfl
          · next hcond =>
              exact le_of_not_lt (fun hlt =>
                hcond ((xidCmp_lt_keyM x min0 maxXid hx0 hxU hmax0 hmaxU
                  hxmax hmin0).2 hlt))
        have step :
            ∀ xips1 : List Nat,
            ∃ minR xipsR, snapLoop maxXid txnXid rest min1 xips1 = Except.ok (minR, xipsR) ∧
              (∀ y, y ∈ xipsR ↔
                (y ∈ xips1 ∨ (y ∈ rest ∧ xidCmp y maxXid = Ordering.lt ∧ y ≠ txnXid))) ∧
              (minR = min1 ∨ (minR ∈ rest ∧ xidCmp minR maxXid = Ordering.lt)) ∧
              (minR = maxXid ∨ (minR ≠ 0 ∧ minR < U32 ∧ xidCmp minR maxXid = Ordering.lt)) ∧
              keyM maxXid minR ≤ keyM maxXid min1 ∧
              (∀ y ∈ rest, xidCmp y maxXid = Ordering.lt →
                keyM maxXid minR ≤ keyM maxXid y) :=
          fun xips1 => ih min1 xips1 hrest hmin1P
        by_cases hxtxn : (x == txnXid) = true
        · rw [if_pos hxtxn]
          obtain ⟨minR, xipsR, heq, hmem, hsrc, hinv, hkey, hall⟩ := step xips0
          refine ⟨minR, xipsR, heq, ?_, ?_, hinv, le_trans hkey hkey1, ?_⟩
          · intro y
            rw [hmem y]
            have hxy : x = txnXid := by simpa using hxtxn
            constructor
            · rintro (h | ⟨h1, h2, h3⟩)
              · exact Or.inl h
              · exact Or.inr ⟨List.mem_cons_of_mem x h1, h2, h3⟩
            · rintro (h | ⟨h1, h2, h3⟩)
              · exact Or.inl h
              · rcases List.mem_cons.mp h1 with h1 | h1
                · exact absurd (h1 ▸ hxy) h3
                · exact Or.inr ⟨h1, h2, h3⟩
          · rcases hsrc with hsrc | hsrc
            · rw [hsrc, hmin1]
              split
              · exact Or.inr ⟨List.mem_cons_self x rest, hxmax⟩
              · exact Or.inl rfl
            · exact Or.inr ⟨List.mem_cons_of_mem x hsrc.1, hsrc.2⟩
          · intro y hy hylt
            rcases List.mem_cons.mp hy with hy | hy
            · subst hy
              exact le_trans hkey hkeyx
            · exact hall y hy hylt
        · rw [if_neg (by simpa using hxtxn)]
          obtain ⟨minR, xipsR, heq, hmem, hsrc, hinv, hkey, hall⟩ := step (x :: xips0)
          refine ⟨minR, xipsR, heq, ?_, ?_, hinv, le_trans hkey hkey1, ?_⟩
          · intro y
            rw [hmem y]
            have hxy : x ≠ txnXid := by simpa using hxtxn
            constructor
            · rintro (h | ⟨h1, h2, h3⟩)
              · rcases List.mem_cons.mp h with h | h
                · subst h
                  exact Or.inr ⟨List.mem_cons_self y rest, hxmax, hxy⟩
                · exact Or.inl h
              · exact Or.inr ⟨List.mem_cons_of_mem x h1, h2, h3⟩
            · rintro (h | ⟨h1, h2, h3⟩)
              · exact Or.inl (List.mem_cons_of_mem x h)
              · rcases List.mem_cons.mp h1 with h1 | h1
                · subst h1
                  exact Or.inl (List.mem_cons_self y xips0)
                · exact Or.inr ⟨h1, h2, h3⟩
          · rcases hsrc with hsrc | hsrc
            · rw [hsrc, hmin1]
              split
              · exact Or.inr ⟨List.mem_cons_self x rest, hxmax⟩
              · exact Or.inl rfl
            · exact Or.inr ⟨List.mem_cons_of_mem x hsrc.1, hsrc.2⟩
          · intro y hy hylt
            rcases List.mem_cons.mp hy with hy | hy
            · subst hy
              exact le_trans hkey hkeyx
            · exact hall y hy hylt
      · rw [if_pos (by simpa using hxmax)]
        obtain ⟨minR, xipsR, heq, hmem, hsrc, hinv, hkey, hall⟩ :=
          ih min0 xips0 hrest hmin0
        refine ⟨minR, xipsR, heq, ?_, ?_, hinv, hkey, ?_⟩
        · intro y
          rw [hmem y]
          constructor
          · rintro (h | ⟨h1, h2, h3⟩)
            · exact Or.inl h
            · exact Or.inr ⟨List.mem_cons_of_mem x h1, h2, h3⟩
          · rintro (h | ⟨h1, h2, h3⟩)
            · exact Or.inl h
            · rcases List.mem_cons.mp h1 with h1 | h1
              · exact absurd (h1 ▸ h2) hxmax
              · exact Or.inr ⟨h1, h2, h3⟩
        · rcases hsrc with hsrc | hsrc
          · exact Or.inl hsrc
          · exact Or.inr ⟨List.mem_cons_of_mem x hsrc.1, hsrc.2⟩
        · intro y hy hylt
          rcases List.mem_cons.mp hy with hy | hy
          · exact absurd (hy ▸ hylt) hxmax
          · exact hall y hy hylt

/-- C6 (counterexample): active set `{5}`, latest completed XID 6,
calling transaction 5.  Then `max_xid = 7`, and 5 is an active XID
strictly below `max_xid`, yet `xips` is empty: `record_snapshot` skips
the calling transaction's own XID, which the claim requires to be in
`xips`. -/
theorem record_snapshot_counterexample :
    ∃ s, recordSnapshot ⟨[5], 6⟩ 5 = Except.ok s ∧
      (5 : Nat) ∈ ([5] : List Nat) ∧
      xidCmp 5 s.maxXid = Ordering.lt ∧
      5 ∉ s.xips := by
  refine ⟨⟨5, 7, []⟩, rfl, by decide, by decide, by decide⟩

/-- C6 (amended): under the snapshot-data lock, `record_snapshot` returns
`max_xid = latest_completed.inc()`; `xips` holds exactly the active XIDs
strictly below `max_xid` other than the calling transaction's own XID;
and `min_xid` is the minimum (in wrap-aware order) over all active XIDs
strictly below `max_xid` — the caller's included — or `max_xid` when
there is none. -/
theorem record_snapshot_spec (sd : SnapshotData) (txnXid : Nat)
    (hact : ∀ x ∈ sd.activeXids, x ≠ 0 ∧ x < U32) :
    ∃ s, recordSnapshot sd txnXid = Except.ok s ∧
      s.maxXid = xidInc sd.latestCompletedXid ∧
      (∀ x, x ∈ s.xips ↔
        (x ∈ sd.activeXids ∧ xidCmp x s.maxXid = Ordering.lt ∧ x ≠ txnXid)) ∧
      (s.minXid = s.maxXid ∨
        (s.minXid ∈ sd.activeXids ∧ xidCmp s.minXid s.maxXid = Ordering.lt)) ∧
      (∀ x ∈ sd.activeXids, xidCmp x s.maxXid = Ordering.lt →
        ¬ xidCmp x s.minXid = Ordering.lt) := by
  have hmax0 : xidInc sd.latestCompletedXid ≠ 0 := xidInc_ne_zero _
  have hmaxU : xidInc sd.latestCompletedXid < U32 := xidInc_lt _
  obtain ⟨minR, xipsR, heq, hmem, hsrc, hinv, _, hall⟩ :=
    snapLoop_spec (xidInc sd.latestCompletedXid) txnXid hmax0 hmaxU
      sd.activeXids (xidInc sd.latestCompletedXid) [] hact (Or.inl rfl)
  refine ⟨⟨minR, xidInc sd.latestCompletedXid, xipsR⟩, ?_, rfl, ?_, ?_, ?_⟩
  · unfold recordSnapshot
    dsimp only
    rw [heq]
  · intro x
    rw [hmem x]
    simp
  · rcases hsrc with h | h
    · exact Or.inl h
    · exact Or.inr h
  · intro x hx hxlt
    intro hcon
    have hiff := xidCmp_lt_keyM x minR (xidInc sd.latestCompletedXid)
      (hact x hx).1 (hact x hx).2 hmax0 hmaxU hxlt hinv
    exact absurd (hiff.1 hcon) (not_lt.mpr (hall x hx hxlt))

/-- Witness for C6 (amended) at active set `{5}`, latest completed 6,
calling transaction 5. -/
theorem record_snapshot_spec_witness :
    (∀ x ∈ ([5] : List Nat), x ≠ 0 ∧ x < U32) ∧
    ∃ s, recordSnapshot ⟨[5], 6⟩ 5 = Except.ok s ∧
      s.maxXid = xidInc 6 ∧
      (∀ x, x ∈ s.xips ↔
        (x ∈ ([5] : List Nat) ∧ xidCmp x s.maxXid = Ordering.lt ∧ x ≠ 5)) ∧
      (s.minXid = s.maxXid ∨
        (s.minXid ∈ ([5] : List Nat) ∧ xidCmp s.minXid s.maxXid = Ordering.lt)) ∧
      (∀ x ∈ ([5] : List Nat), xidCmp x s.maxXid = Ordering.lt →
        ¬ xidCmp x s.minXid = Ordering.lt) :=
  ⟨by decide, record_snapshot_spec ⟨[5], 6⟩ 5 (by decide)⟩

/-! ## WAL-before-data flush order
(src/storage/page_cache.rs, src/storage/buffer_manager.rs,
src/wal/mod.rs)

The WAL is abstracted to its two LSN watermarks (`Segment::current_lsn`
and `Segment::flushed_lsn` of the open segment); `Wal::flush(Some lsn)`
is a no-op when `flushed_lsn >= lsn` and otherwise flushes everything
allocated, raising `flushed_lsn` to `current_lsn`
(`Segment::flush_page(false)` sets `page_flushed = page_allocated`).
Each `smgr.write` of a page is recorded as a trace event carrying the
WAL flushed watermark at the moment of the write, which encodes the
temporal order of the two effects. -/

structure WalState where
  currentLsn : Nat
  flushedLsn : Nat

/-- `Wal::flush` (src/wal/mod.rs lines 142-151). -/
def walFlush (w : WalState) (lsn : Option Nat) : WalState :=
  match lsn with
  | some l => if w.flushedLsn ≥ l then w else { w with flushedLsn := w.currentLsn }
  | none => { w with flushedLsn := w.currentLsn }

structure DiskEvent where
  pageNum : Nat
  lsn : Nat
  walFlushedAtWrite : Nat

structure SysState where
  wal : WalState
  disk : List DiskEvent

/-- A buffered page frame: number, byte buffer, dirty bit. -/
structure DPage where
  num : Nat
  buffer : Nat → Nat
  dirty : Bool

/-- Little-endian 64-bit read at `off` from a byte buffer. -/
def read64 (buf : Nat → Nat) (off : Nat) : Nat :=
  buf off + 256 * (buf (off + 1) + 256 * (buf (off + 2) + 256 * (buf (off + 3) +
    256 * (buf (off + 4) + 256 * (buf (off + 5) + 256 * (buf (off + 6) +
    256 * buf (off + 7)))))))

/-- `DiskPageReader::get_lsn` (src/storage/mod.rs lines 242-245): the
page header LSN is the little-endian u64 at offset `P_LSN = 0`. -/
def getLsn (buf : Nat → Nat) : Nat := read64 buf 0

/-- `smgr.write` of a page: append a trace event recording the current
WAL flushed watermark. -/
def smgrWrite (s : SysState) (num lsn : Nat) : SysState :=
  { s with disk := s.disk ++ [⟨num, lsn, s.wal.flushedLsn⟩] }

/-- `PageCache::flush_page` (src/storage/page_cache.rs lines 168-181):
read the page LSN, `wal.flush(Some(lsn))`, write the page to disk, then
clear the dirty bit. -/
def flushPage (s : SysState) (p : DPage) : SysState × DPage :=
  let lsn := getLsn p.buffer
  let s := { s with wal := walFlush s.wal (some lsn) }
  let s := smgrWrite s p.num lsn
  (s, { p with dirty := false })

/-- The eviction path of `PageCache::alloc_page` (lines 52-60): flush the
victim only when dirty. -/
def evictFlush (s : SysState) (p : DPage) : SysState × DPage :=
  if p.dirty then flushPage s p else (s, p)

/-- `BufferManager::sync_pages` (src/storage/buffer_manager.rs lines
48-60): flush each collected dirty page in turn. -/
def syncPages (s : SysState) : List DPage → SysState × List DPage
  | [] => (s, [])
  | p :: ps =>
      let r := flushPage s p
      let r2 := syncPages r.1 ps
      (r2.1, r.2 :: r2.2)

/-- WAL bytes up to the page's LSN were durable when the write happened. -/
def eventOk (ev : DiskEvent) : Prop := ev.lsn ≤ ev.walFlushedAtWrite

theorem syncPages_cons (s : SysState) (p : DPage) (ps : List DPage) :
    syncPages s (p :: ps) =
      ((syncPages (flushPage s p).1 ps).1,
        (flushPage s p).2 :: (syncPages (flushPage s p).1 ps).2) := by
  rw [syncPages]

theorem walFlush_some_ge (w : WalState) (l : Nat)
    (hl : l ≤ w.currentLsn) : l ≤ (walFlush w (some l)).flushedLsn := by
  unfold walFlush
  dsimp only
  split
  · next h => exact h
  · exact hl

theorem walFlush_current (w : WalState) (lsn : Option Nat) :
    (walFlush w lsn).currentLsn = w.currentLsn := by
  unfold walFlush
  cases lsn with
  | none => rfl
  | some l =>
      dsimp only
      split <;> rfl

theorem flushPage_spec (s : SysState) (p : DPage)
    (hlsn : getLsn p.buffer ≤ s.wal.currentLsn) :
    (flushPage s p).1.disk =
      s.disk ++ [⟨p.num, getLsn p.buffer, (flushPage s p).1.wal.flushedLsn⟩] ∧
    getLsn p.buffer ≤ (flushPage s p).1.wal.flushedLsn ∧
    (flushPage s p).1.wal.currentLsn = s.wal.currentLsn ∧
    (flushPage s p).2.dirty = false ∧
    (flushPage s p).2.buffer = p.buffer ∧
    (flushPage s p).2.num = p.num := by
  refine ⟨rfl, walFlush_some_ge s.wal (getLsn p.buffer) hlsn,
    walFlush_current s.wal _, rfl, rfl, rfl⟩

/-- C1: whenever the buffer manager writes a page to disk — directly via
`flush_page`, from the eviction path of `alloc_page`, or from
`sync_pages` — it reads the header LSN, flushes the WAL to it, and only
then writes the page and clears the dirty bit: every disk-write event
these operations add to the trace carries a WAL flushed watermark at
least the page's LSN (given that page LSNs never exceed the WAL's
current append position). -/
theorem wal_before_data (s : SysState) (p : DPage) (ps : List DPage)
    (hlsn : getLsn p.buffer ≤ s.wal.currentLsn)
    (hps : ∀ q ∈ ps, getLsn q.buffer ≤ s.wal.currentLsn) :
    ((flushPage s p).1.disk =
        s.disk ++ [⟨p.num, getLsn p.buffer, (flushPage s p).1.wal.flushedLsn⟩] ∧
      getLsn p.buffer ≤ (flushPage s p).1.wal.flushedLsn ∧
      (flushPage s p).2.dirty = false) ∧
    (∀ ev ∈ (evictFlush s p).1.disk, ev ∈ s.disk ∨ eventOk ev) ∧
    (∀ ev ∈ (syncPages s ps).1.disk, ev ∈ s.disk ∨ eventOk ev) ∧
    (∀ q ∈ (syncPages s ps).2, q.dirty = false) := by
  obtain ⟨hd, hge, hcur, hdirty, _, _⟩ := flushPage_spec s p hlsn
  refine ⟨⟨hd, hge, hdirty⟩, ?_, ?_, ?_⟩
  · intro ev hev
    unfold evictFlush at hev
    split at hev
    · obtain ⟨hd', hge', _, _, _, _⟩ := flushPage_spec s p hlsn
      rw [hd'] at hev
      rcases List.mem_append.mp hev with h | h
      · exact Or.inl h
      · rcases List.mem_singleton.mp h with rfl
        exact Or.inr hge'
    · exact Or.inl hev
  · -- syncPages: induction carrying the invariant over the evolving state
    have main : ∀ (l : List DPage) (s0 : SysState),
        (∀ q ∈ l, getLsn q.buffer ≤ s0.wal.currentLsn) →
        (∀ ev ∈ (syncPages s0 l).1.disk, ev ∈ s0.disk ∨ eventOk ev) ∧
        (syncPages s0 l).1.wal.currentLsn = s0.wal.currentLsn := by
      intro l
      induction l with
      | nil =>
          intro s0 _
          exact ⟨fun ev hev => Or.inl hev, rfl⟩
      | cons q qs ihq =>
          intro s0 hq
          obtain ⟨hd0, hge0, hcur0, _, _, _⟩ :=
            flushPage_spec s0 q (hq q (List.mem_cons_self q qs))
          have hq' : ∀ r ∈ qs, getLsn r.buffer ≤ (flushPage s0 q).1.wal.currentLsn := by
            intro r hr
            rw [hcur0]
            exact hq r (List.mem_cons_of_mem q hr)
          obtain ⟨ihmem, ihcur⟩ := ihq (flushPage s0 q).1 hq'
          constructor
          · intro ev hev
            rw [syncPages_cons] at hev
            have hcase : ev ∈ (flushPage s0 q).1.disk ∨ eventOk ev := ihmem ev hev
            rcases hcase with h | h
            · rw [hd0] at h
              rcases List.mem_append.mp h with h | h
              · exact Or.inl h
              · rcases List.mem_singleton.mp h with rfl
                exact Or.inr hge0
            · exact Or.inr h
          · rw [syncPages_cons]
            dsimp only
            rw [ihcur, hcur0]
    exact (main ps s hps).1
  · -- all pages returned by sync_pages are clean
    have main : ∀ (l : List DPage) (s0 : SysState),
        ∀ q ∈ (syncPages s0 l).2, q.dirty = false := by
      intro l
      induction l with
      | nil =>
          intro s0 q hq
          cases hq
      | cons r rs ihr =>
          intro s0 q hq
          rw [syncPages_cons] at hq
          rcases List.mem_cons.mp hq with hq | hq
          · rw [hq]
            rfl
          · exact ihr (flushPage s0 r).1 q hq
    exact main ps s

/-- Witness for C1: WAL at current LSN 100 with nothing flushed, a dirty
page whose header LSN is 42. -/
theorem wal_before_data_witness :
    getLsn (fun i => if i = 0 then 42 else 0) ≤
      (SysState.mk ⟨100, 0⟩ []).wal.currentLsn ∧
    (∀ q ∈ [DPage.mk 3 (fun i => if i = 0 then 42 else 0) true],
      getLsn q.buffer ≤ (SysState.mk ⟨100, 0⟩ []).wal.currentLsn) ∧
    (((flushPage (SysState.mk ⟨100, 0⟩ []) ⟨3, fun i => if i = 0 then 42 else 0, true⟩).1.disk =
        (SysState.mk ⟨100, 0⟩ []).disk ++
          [⟨3, getLsn (fun i => if i = 0 then 42 else 0),
            (flushPage (SysState.mk ⟨100, 0⟩ [])
              ⟨3, fun i => if i = 0 then 42 else 0, true⟩).1.wal.flushedLsn⟩] ∧
      getLsn (fun i => if i = 0 then 42 else 0) ≤
        (flushPage (SysState.mk ⟨100, 0⟩ [])
          ⟨3, fun i => if i = 0 then 42 else 0, true⟩).1.wal.flushedLsn ∧
      (flushPage (SysState.mk ⟨100, 0⟩ [])
        ⟨3, fun i => if i = 0 then 42 else 0, true⟩).2.dirty = false) ∧
    (∀ ev ∈ (evictFlush (SysState.mk ⟨100, 0⟩ [])
        ⟨3, fun i => if i = 0 then 42 else 0, true⟩).1.disk,
      ev ∈ (SysState.mk ⟨100, 0⟩ []).disk ∨ eventOk ev) ∧
    (∀ ev ∈ (syncPages (SysState.mk ⟨100, 0⟩ [])
        [DPage.mk 3 (fun i => if i = 0 then 42 else 0) true]).1.disk,
      ev ∈ (SysState.mk ⟨100, 0⟩ []).disk ∨ eventOk ev) ∧
    (∀ q ∈ (syncPages (SysState.mk ⟨100, 0⟩ [])
        [DPage.mk 3 (fun i => if i = 0 then 42 else 0) true]).2, q.dirty = false)) :=
  ⟨by decide, by decide,
   wal_before_data (SysState.mk ⟨100, 0⟩ [])
     ⟨3, fun i => if i = 0 then 42 else 0, true⟩
     [DPage.mk 3 (fun i => if i = 0 then 42 else 0) true] (by decide) (by decide)⟩

/-! ## Item pages (src/storage/mod.rs lines 306-491)

The `ItemPageReader`/`ItemPageWriter` traits operate on a byte slice (a
page payload).  We model the payload as its length plus an index
function; u16 header fields are stored little-endian exactly as
`byteorder` does.  Slice-indexing panics (impossible under the framing
invariant) surface as a distinguished `panicked` error; u16 arithmetic
wraps (release semantics). -/

def P_LOWER : Nat := 0

def P_UPPER : Nat := 2

def P_POINTERS : Nat := 4

def LINE_POINTER_SIZE : Nat := 4

structure ItemPage where
  len : Nat
  buf : Nat → Nat

/-- Little-endian u16 read. -/
def read16 (buf : Nat → Nat) (off : Nat) : Nat := buf off + 256 * buf (off + 1)

/-- Little-endian u16 write. -/
def write16 (buf : Nat → Nat) (off v : Nat) : Nat → Nat :=
  fun i =>
    if i = off then v % 256
    else if i = off + 1 then (v / 256) % 256
    else buf i

/-- Write the bytes of `item` starting at `pos`. -/
def writeBytes (buf : Nat → Nat) (pos : Nat) (item : List Nat) : Nat → Nat :=
  fun i => if pos ≤ i ∧ i < pos + item.length then item.getD (i - pos) 0 else buf i

/-- `ItemPageReader::get_lower`. -/
def ItemPage.lower (p : ItemPage) : Nat := read16 p.buf P_LOWER

/-- `ItemPageReader::get_upper`. -/
def ItemPage.upper (p : ItemPage) : Nat := read16 p.buf P_UPPER

/-- `ItemPageReader::is_new`: `upper == 0`. -/
def ItemPage.isNew (p : ItemPage) : Bool := p.upper == 0

/-- `ItemPageReader::get_free_space` (lines 338-346); `size` is
`upper - lower`. -/
def ItemPage.freeSpace (p : ItemPage) : Nat :=
  if p.upper - p.lower < LINE_POINTER_SIZE then 0
  else p.upper - p.lower - LINE_POINTER_SIZE

/-- `ItemPageReader::num_line_pointers` (lines 348-356). -/
def ItemPage.numLinePointers (p : ItemPage) : Nat :=
  let lower := p.lower
  if lower < P_POINTERS then 0 else (lower - P_POINTERS) / LINE_POINTER_SIZE

/-- Byte position of the (1-based) line pointer slot `offset`. -/
def lpPos (offset : Nat) : Nat := P_POINTERS + (offset - 1) * LINE_POINTER_SIZE

/-- `ItemPageReader::get_line_pointer` (lines 358-368), as `(off, len)`. -/
def ItemPage.linePointer (p : ItemPage) (offset : Nat) : Nat × Nat :=
  (read16 p.buf (lpPos offset), read16 p.buf (lpPos offset + 2))

/-- `ItemPageReader::get_item` (lines 370-374). -/
def ItemPage.item (p : ItemPage) (offset : Nat) : List Nat :=
  let lp := p.linePointer offset
  (List.range lp.2).map (fun k => p.buf (lp.1 + k))

/-- `ItemPageWriter::init_item_page` (lines 399-407): zero the payload,
`lower = P_POINTERS`, `upper = payload length`. -/
def initItemPage (len : Nat) : ItemPage :=
  ⟨len, write16 (write16 (fun _ => 0) P_LOWER P_POINTERS) P_UPPER len⟩

/-- `ItemPageWriter::put_line_pointer` (lines 409-417). -/
def putLinePointer (buf : Nat → Nat) (offset : Nat) (lpOff lpLen : Nat) : Nat → Nat :=
  write16 (write16 buf (lpPos offset) lpOff) (lpPos offset + 2) lpLen

/-- The `ptr::copy` in `put_item` shifting line pointers `offset..limit`
one slot to the right. -/
def shiftPointers (buf : Nat → Nat) (offset limit : Nat) : Nat → Nat :=
  fun i =>
    if lpPos offset + LINE_POINTER_SIZE ≤ i ∧
        i < lpPos offset + LINE_POINTER_SIZE + (limit - offset) * LINE_POINTER_SIZE then
      buf (i - LINE_POINTER_SIZE)
    else buf i

inductive PageError where
  | dataCorrupted
  | invalidArgument
  | panicked
  deriving DecidableEq, Repr

/-- `ItemPageWriter::put_item` (lines 419-476).  u16 subtraction wraps;
the final `copy_from_slice` out of page bounds is the `panicked` case. -/
def putItem (p : ItemPage) (item : List Nat) (target : Option Nat) (overwrite : Bool) :
    Except PageError (ItemPage × Nat) :=
  let lower := p.lower
  let upper := p.upper
  if lower < P_POINTERS ∨ lower > upper ∨ upper > p.len then
    Except.error PageError.dataCorrupted
  else
    let upper' := (upper + 65536 - item.length % 65536) % 65536
    let limit := p.numLinePointers + 1
    let offset := target.getD limit
    if offset > limit then Except.error PageError.invalidArgument
    else if offset = 0 then
      -- `offset - 1` underflows in `put_line_pointer` / the shuffle copy
      Except.error PageError.panicked
    else
      let needShuffle := !overwrite ∧ offset < limit
      let buf1 := if needShuffle then shiftPointers p.buf offset limit else p.buf
      let buf2 := putLinePointer buf1 offset upper' (item.length % 65536)
      let lower' := if offset = limit ∨ needShuffle then (lower + LINE_POINTER_SIZE) % 65536
        else lower
      if upper' + item.length > p.len then Except.error PageError.panicked
      else
        let buf3 := writeBytes buf2 upper' item
        let buf4 := write16 buf3 P_LOWER lower'
        let buf5 := write16 buf4 P_UPPER upper'
        Except.ok (⟨p.len, buf5⟩, offset)

/-- `ItemPageWriter::set_item` (lines 478-490). -/
def setItem (p : ItemPage) (offset : Nat) (item : List Nat) :
    Except PageError ItemPage :=
  let lp := p.linePointer offset
  if ¬ lp.2 = item.length then Except.error PageError.invalidArgument
  else if lp.1 + lp.2 > p.len then Except.error PageError.panicked
  else Except.ok ⟨p.len, writeBytes p.buf lp.1 item⟩

/-- The item-page framing invariant of the claim:
`HEADER ≤ lower ≤ upper ≤ PAGE_END`, the line-pointer array fills
exactly `[P_POINTERS, lower)`, and every line pointer's item lies in
`[upper, PAGE_END)`. -/
def PageInv (p : ItemPage) : Prop :=
  p.len < 65536 ∧
  P_POINTERS ≤ p.lower ∧ p.lower ≤ p.upper ∧ p.upper ≤ p.len ∧
  p.lower = P_POINTERS + p.numLinePointers * LINE_POINTER_SIZE ∧
  (∀ off, 1 ≤ off → off ≤ p.numLinePointers →
    p.upper ≤ (p.linePointer off).1 ∧
    (p.linePointer off).1 + (p.linePointer off).2 ≤ p.len)

theorem write16_ne (buf : Nat → Nat) (off v i : Nat)
    (h1 : i ≠ off) (h2 : i ≠ off + 1) : write16 buf off v i = buf i := by
  unfold write16
  rw [if_neg h1, if_neg h2]

theorem read16_write16_same (buf : Nat → Nat) (off v : Nat) (hv : v < 65536) :
    read16 (write16 buf off v) off = v := by
  unfold read16 write16
  have h1 : ¬ (off + 1 = off) := by omega
  rw [if_pos rfl, if_neg h1, if_pos rfl]
  omega

theorem read16_write16_ne (buf : Nat → Nat) (off v off' : Nat)
    (h : off' + 1 < off ∨ off + 1 < off') :
    read16 (write16 buf off v) off' = read16 buf off' := by
  unfold read16
  rw [write16_ne buf off v off' (by omega) (by omega),
    write16_ne buf off v (off' + 1) (by omega) (by omega)]

theorem writeBytes_ne (buf : Nat → Nat) (pos : Nat) (item : List Nat) (i : Nat)
    (h : i < pos ∨ pos + item.length ≤ i) : writeBytes buf pos item i = buf i := by
  unfold writeBytes
  rw [if_neg (by omega)]

theorem read16_writeBytes_ne (buf : Nat → Nat) (pos : Nat) (item : List Nat) (off' : Nat)
    (h : off' + 1 < pos ∨ pos + item.length ≤ off') :
    read16 (writeBytes buf pos item) off' = read16 buf off' := by
  unfold read16
  rw [writeBytes_ne buf pos item off' (by omega),
    writeBytes_ne buf pos item (off' + 1) (by omega)]

theorem shiftPointers_ne (buf : Nat → Nat) (offset limit i : Nat)
    (h : i < lpPos offset + LINE_POINTER_SIZE ∨
      lpPos offset + LINE_POINTER_SIZE + (limit - offset) * LINE_POINTER_SIZE ≤ i) :
    shiftPointers buf offset limit i = buf i := by
  unfold shiftPointers
  rw [if_neg (by omega)]

theorem shiftPointers_in (buf : Nat → Nat) (offset limit i : Nat)
    (h1 : lpPos offset + LINE_POINTER_SIZE ≤ i)
    (h2 : i < lpPos offset + LINE_POINTER_SIZE + (limit - offset) * LINE_POINTER_SIZE) :
    shiftPointers buf offset limit i = buf (i - LINE_POINTER_SIZE) := by
  unfold shiftPointers
  rw [if_pos ⟨h1, h2⟩]

theorem lpPos_eq (j : Nat) (hj : 1 ≤ j) : lpPos j = 4 * j := by
  unfold lpPos P_POINTERS LINE_POINTER_SIZE
  omega

theorem init_page_inv (len : Nat) (h4 : P_POINTERS ≤ len) (hlen : len < 65536) :
    PageInv (initItemPage len) := by
  have hlow : (initItemPage len).lower = P_POINTERS := by
    unfold initItemPage ItemPage.lower
    rw [read16_write16_ne _ P_UPPER len P_LOWER (by unfold P_LOWER P_UPPER; omega),
      read16_write16_same _ _ _ (by unfold P_POINTERS; omega)]
  have hup : (initItemPage len).upper = len := by
    unfold initItemPage ItemPage.upper
    rw [read16_write16_same _ _ _ hlen]
  have hnum : (initItemPage len).numLinePointers = 0 := by
    unfold ItemPage.numLinePointers
    rw [hlow]
    simp
  refine ⟨hlen, le_of_eq hlow.symm, ?_, le_of_eq hup, ?_, ?_⟩
  · rw [hlow, hup]
    exact h4
  · rw [hlow, hnum]
    omega
  · intro off h1 h2
    rw [hnum] at h2
    omega

theorem lower_read_final (buf3 : Nat → Nat) (lower' upper' : Nat) (h : lower' < 65536) :
    read16 (write16 (write16 buf3 P_LOWER lower') P_UPPER upper') P_LOWER = lower' := by
  rw [read16_write16_ne _ P_UPPER _ P_LOWER (Or.inl (by unfold P_LOWER P_UPPER; omega)),
    read16_write16_same _ _ _ h]

theorem upper_read_final (buf3 : Nat → Nat) (lower' upper' : Nat) (h : upper' < 65536) :
    read16 (write16 (write16 buf3 P_LOWER lower') P_UPPER upper') P_UPPER = upper' := by
  rw [read16_write16_same _ _ _ h]

theorem slot_read_final (buf2 : Nat → Nat) (item : List Nat) (upper' lower' pos : Nat)
    (hge : P_POINTERS ≤ pos) (hlt : pos + 1 < upper') :
    read16 (write16 (write16 (writeBytes buf2 upper' item) P_LOWER lower') P_UPPER upper') pos =
      read16 buf2 pos := by
  rw [read16_write16_ne _ P_UPPER _ pos (Or.inr (by unfold P_UPPER P_POINTERS at *; omega)),
    read16_write16_ne _ P_LOWER _ pos (Or.inr (by unfold P_LOWER P_POINTERS at *; omega)),
    read16_writeBytes_ne _ _ _ pos (Or.inl hlt)]

theorem lp_read_put_off (buf1 : Nat → Nat) (o a b : Nat) (ha : a < 65536) :
    read16 (putLinePointer buf1 o a b) (lpPos o) = a := by
  unfold putLinePointer
  rw [read16_write16_ne _ (lpPos o + 2) b (lpPos o) (Or.inl (by omega)),
    read16_write16_same _ _ _ ha]

theorem lp_read_put_len (buf1 : Nat → Nat) (o a b : Nat) (hb : b < 65536) :
    read16 (putLinePointer buf1 o a b) (lpPos o + 2) = b := by
  unfold putLinePointer
  rw [read16_write16_same _ _ _ hb]

theorem lp_read_put_ne (buf1 : Nat → Nat) (o a b j pos : Nat)
    (ho : 1 ≤ o) (hj : 1 ≤ j) (hne : j ≠ o)
    (hpos : pos = lpPos j ∨ pos = lpPos j + 2) :
    read16 (putLinePointer buf1 o a b) pos = read16 buf1 pos := by
  have hjo : lpPos j = 4 * j := lpPos_eq j hj
  have hoo : lpPos o = 4 * o := lpPos_eq o ho
  unfold putLinePointer
  rcases hpos with h | h <;> subst h
  · rw [read16_write16_ne _ (lpPos o + 2) b (lpPos j)
      (by rw [hjo, hoo]; omega),
      read16_write16_ne _ (lpPos o) a (lpPos j) (by rw [hjo, hoo]; omega)]
  · rw [read16_write16_ne _ (lpPos o + 2) b (lpPos j + 2)
      (by rw [hjo, hoo]; omega),
      read16_write16_ne _ (lpPos o) a (lpPos j + 2) (by rw [hjo, hoo]; omega)]

theorem read16_shift_lt (buf : Nat → Nat) (offset limit j pos : Nat)
    (ho : 1 ≤ offset) (hj : 1 ≤ j) (hjo : j < offset)
    (hpos : pos = lpPos j ∨ pos = lpPos j + 2) :
    read16 (shiftPointers buf offset limit) pos = read16 buf pos := by
  have h1 : lpPos j = 4 * j := lpPos_eq j hj
  have h2 : lpPos offset = 4 * offset := lpPos_eq offset ho
  unfold read16
  rcases hpos with h | h <;> subst h <;>
    rw [shiftPointers_ne _ _ _ _ (Or.inl (by unfold LINE_POINTER_SIZE; omega)),
      shiftPointers_ne _ _ _ _ (Or.inl (by unfold LINE_POINTER_SIZE; omega))]

theorem read16_shift_in (buf : Nat → Nat) (offset limit j pos : Nat)
    (ho : 1 ≤ offset) (hjo : offset < j) (hjl : j ≤ limit)
    (hpos : pos = lpPos j ∨ pos = lpPos j + 2) :
    read16 (shiftPointers buf offset limit) pos = read16 buf (pos - LINE_POINTER_SIZE) := by
  have h1 : lpPos j = 4 * j := lpPos_eq j (by omega)
  have h2 : lpPos offset = 4 * offset := lpPos_eq offset ho
  unfold read16
  rcases hpos with h | h <;> subst h
  · rw [shiftPointers_in _ _ _ _ (by unfold LINE_POINTER_SIZE; omega)
        (by unfold LINE_POINTER_SIZE; omega),
      shiftPointers_in _ _ _ _ (by unfold LINE_POINTER_SIZE; omega)
        (by unfold LINE_POINTER_SIZE; omega)]
    have e1 : lpPos j + 1 - LINE_POINTER_SIZE = lpPos j - LINE_POINTER_SIZE + 1 := by
      unfold LINE_POINTER_SIZE
      omega
    rw [e1]
  · rw [shiftPointers_in _ _ _ _ (by unfold LINE_POINTER_SIZE; omega)
        (by unfold LINE_POINTER_SIZE; omega),
      shiftPointers_in _ _ _ _ (by unfold LINE_POINTER_SIZE; omega)
        (by unfold LINE_POINTER_SIZE; omega)]
    have e1 : lpPos j + 2 + 1 - LINE_POINTER_SIZE = lpPos j + 2 - LINE_POINTER_SIZE + 1 := by
      unfold LINE_POINTER_SIZE
      omega
    rw [e1]

theorem mk_page_inv (len upperN lowerN n' : Nat) (buf2 : Nat → Nat) (item : List Nat)
    (hlen : len < 65536)
    (h4 : P_POINTERS ≤ lowerN) (hlowup : lowerN ≤ upperN) (hupmax : upperN ≤ len)
    (hnum' : lowerN = P_POINTERS + n' * LINE_POINTER_SIZE)
    (hslots : ∀ j, 1 ≤ j → j ≤ n' →
      upperN ≤ read16 buf2 (lpPos j) ∧
      read16 buf2 (lpPos j) + read16 buf2 (lpPos j + 2) ≤ len) :
    PageInv ⟨len,
      write16 (write16 (writeBytes buf2 upperN item) P_LOWER lowerN) P_UPPER upperN⟩ := by
  have hP : P_POINTERS = 4 := rfl
  have hLP : LINE_POINTER_SIZE = 4 := rfl
  set p' : ItemPage := ⟨len,
    write16 (write16 (writeBytes buf2 upperN item) P_LOWER lowerN) P_UPPER upperN⟩ with hp'
  have hlow : p'.lower = lowerN := lower_read_final _ _ _ (by omega)
  have hup : p'.upper = upperN := upper_read_final _ _ _ (by omega)
  have hnumP : p'.numLinePointers = n' := by
    unfold ItemPage.numLinePointers
    rw [hlow, if_neg (by omega), hnum']
    rw [hP, hLP]
    omega
  refine ⟨hlen, ?_, ?_, ?_, ?_, ?_⟩
  · rw [hlow]; exact h4
  · rw [hlow, hup]; exact hlowup
  · rw [hup]; exact hupmax
  · rw [hlow, hnumP]; exact hnum'
  · intro j hj1 hj2
    rw [hnumP] at hj2
    have hjpos : lpPos j = 4 * j := lpPos_eq j hj1
    have hbound : lpPos j + 2 + 1 < upperN := by
      rw [hjpos]
      rw [hP, hLP] at hnum'
      omega
    have e1 : read16 p'.buf (lpPos j) = read16 buf2 (lpPos j) :=
      slot_read_final _ _ _ _ _ (by rw [hjpos, hP]; omega) (by omega)
    have e2 : read16 p'.buf (lpPos j + 2) = read16 buf2 (lpPos j + 2) :=
      slot_read_final _ _ _ _ _ (by rw [hP, hjpos]; omega) (by omega)
    unfold ItemPage.linePointer
    dsimp only
    rw [e1, e2, hup]
    exact hslots j hj1 hj2

theorem putItem_inv (p : ItemPage) (item : List Nat) (target : Option Nat) (ow : Bool)
    (p' : ItemPage) (off : Nat)
    (hInv : PageInv p) (hpos : 0 < item.length) (hfit : item.length ≤ p.freeSpace)
    (hok : putItem p item target ow = Except.ok (p', off)) : PageInv p' := by
  obtain ⟨hlen, hl4, hlu, hul, hnum, hlps⟩ := hInv
  have hP : P_POINTERS = 4 := rfl
  have hLP : LINE_POINTER_SIZE = 4 := rfl
  have hsz : item.length + 4 ≤ p.upper - p.lower := by
    unfold ItemPage.freeSpace at hfit
    rw [hLP] at hfit
    split at hfit <;> omega
  have hl4' : 4 ≤ p.lower := by omega
  have hLlt : item.length < 65536 := by omega
  have hmod : item.length % 65536 = item.length := Nat.mod_eq_of_lt hLlt
  have hup' : (p.upper + 65536 - item.length % 65536) % 65536 = p.upper - item.length := by
    rw [hmod]
    omega
  have hlmod : (p.lower + LINE_POINTER_SIZE) % 65536 = p.lower + 4 := by
    rw [hLP]
    omega
  unfold putItem at hok
  rw [if_neg (by omega)] at hok
  rw [hup', hmod, hlmod] at hok
  by_cases hgt : target.getD (p.numLinePointers + 1) > p.numLinePointers + 1
  · rw [if_pos hgt] at hok
    cases hok
  rw [if_neg hgt] at hok
  by_cases h00 : target.getD (p.numLinePointers + 1) = 0
  · rw [if_pos h00] at hok
    cases hok
  rw [if_neg h00] at hok
  rw [if_neg (by omega : ¬ p.upper - item.length + item.length > p.len)] at hok
  rw [Except.ok.injEq, Prod.mk.injEq] at hok
  obtain ⟨hp', hoff⟩ := hok
  subst hp'
  set n := p.numLinePointers with hn
  rw [hP, hLP] at hnum
  set o := target.getD (n + 1) with ho
  have ho1 : 1 ≤ o := by omega
  have hole : o ≤ n + 1 := by omega
  set upperN := p.upper - item.length with hupN
  have hslotOld : ∀ j, 1 ≤ j → j ≤ n →
      upperN ≤ read16 p.buf (lpPos j) ∧
      read16 p.buf (lpPos j) + read16 p.buf (lpPos j + 2) ≤ p.len := by
    intro j h1 h2
    have := hlps j h1 h2
    unfold ItemPage.linePointer at this
    dsimp only at this
    exact ⟨by omega, this.2⟩
  by_cases hol : o = n + 1
  · -- append at the first free slot: no shuffle, lower grows by one pointer
    have hns : ¬ ((!ow) = true ∧ o < n + 1) := by
      intro h
      omega
    rw [if_pos (Or.inl hol), if_neg hns]
    apply mk_page_inv p.len upperN (p.lower + 4) (n + 1) _ item hlen
      (by omega) (by omega) (by omega) (by rw [hP, hLP]; omega)
    intro j hj1 hj2
    by_cases hjo : j = o
    · subst hjo
      rw [lp_read_put_off _ _ _ _ (by omega), lp_read_put_len _ _ _ _ (by omega)]
      omega
    · rw [lp_read_put_ne _ _ _ _ _ _ ho1 hj1 hjo (Or.inl rfl),
        lp_read_put_ne _ _ _ _ _ _ ho1 hj1 hjo (Or.inr rfl)]
      exact hslotOld j hj1 (by omega)
  · have holt : o < n + 1 := by omega
    by_cases how : ow
    · -- overwrite an existing slot in place: no shuffle, lower unchanged
      have hns : ¬ ((!ow) = true ∧ o < n + 1) := by
        rw [how]
        simp
      have hns2 : ¬ (o = n + 1 ∨ ((!ow) = true ∧ o < n + 1)) := by
        rw [how]
        simp [hol]
      rw [if_neg hns, if_neg hns2]
      apply mk_page_inv p.len upperN p.lower n _ item hlen
        (by omega) (by omega) (by omega) (by rw [hP, hLP]; exact hnum)
      intro j hj1 hj2
      by_cases hjo : j = o
      · subst hjo
        rw [lp_read_put_off _ _ _ _ (by omega), lp_read_put_len _ _ _ _ (by omega)]
        omega
      · rw [lp_read_put_ne _ _ _ _ _ _ ho1 hj1 hjo (Or.inl rfl),
          lp_read_put_ne _ _ _ _ _ _ ho1 hj1 hjo (Or.inr rfl)]
        exact hslotOld j hj1 hj2
    · -- insert before existing slots: shuffle pointers right, lower grows
      have hB : ow = false := by
        simpa using how
      have hsh : ((!ow) = true ∧ o < n + 1) := by
        rw [hB]
        exact ⟨rfl, holt⟩
      rw [if_pos (Or.inr hsh), if_pos hsh]
      apply mk_page_inv p.len upperN (p.lower + 4) (n + 1) _ item hlen
        (by omega) (by omega) (by omega) (by rw [hP, hLP]; omega)
      intro j hj1 hj2
      by_cases hjo : j = o
      · subst hjo
        rw [lp_read_put_off _ _ _ _ (by omega), lp_read_put_len _ _ _ _ (by omega)]
        omega
      · rw [lp_read_put_ne _ _ _ _ _ _ ho1 hj1 hjo (Or.inl rfl),
          lp_read_put_ne _ _ _ _ _ _ ho1 hj1 hjo (Or.inr rfl)]
        by_cases hjlt : j < o
        · rw [read16_shift_lt _ _ _ _ _ ho1 hj1 hjlt (Or.inl rfl),
            read16_shift_lt _ _ _ _ _ ho1 hj1 hjlt (Or.inr rfl)]
          exact hslotOld j hj1 (by omega)
        · have hogt : o < j := by omega
          rw [read16_shift_in _ _ _ _ _ ho1 hogt (by omega) (Or.inl rfl),
            read16_shift_in _ _ _ _ _ ho1 hogt (by omega) (Or.inr rfl)]
          have hjpos : lpPos j = 4 * j := lpPos_eq j hj1
          have hjm : lpPos j - LINE_POINTER_SIZE = lpPos (j - 1) := by
            rw [hjpos, lpPos_eq (j - 1) (by omega), hLP]
            omega
          have hjm2 : lpPos j + 2 - LINE_POINTER_SIZE = lpPos (j - 1) + 2 := by
            rw [hjpos, lpPos_eq (j - 1) (by omega), hLP]
            omega
          rw [hjm, hjm2]
          exact hslotOld (j - 1) (by omega) (by omega)

theorem setItem_inv (p : ItemPage) (offset : Nat) (item : List Nat) (p' : ItemPage)
    (hInv : PageInv p) (h1 : 1 ≤ offset) (h2 : offset ≤ p.numLinePointers)
    (hok : setItem p offset item = Except.ok p') : PageInv p' := by
  obtain ⟨hlen, hl4, hlu, hul, hnum, hlps⟩ := hInv
  have hP : P_POINTERS = 4 := rfl
  have hLP : LINE_POINTER_SIZE = 4 := rfl
  rw [hP] at hl4
  rw [hP, hLP] at hnum
  obtain ⟨hlp1, hlp2⟩ := hlps offset h1 h2
  unfold setItem at hok
  by_cases hlne : ¬ (p.linePointer offset).2 = item.length
  · rw [if_pos hlne] at hok
    cases hok
  rw [if_neg hlne] at hok
  rw [if_neg (by omega : ¬ (p.linePointer offset).1 + (p.linePointer offset).2 > p.len)] at hok
  rw [Except.ok.injEq] at hok
  push_neg at hlne
  set a := (p.linePointer offset).1 with ha
  have hreg : ∀ pos, pos + 1 < p.lower →
      read16 (writeBytes p.buf a item) pos = read16 p.buf pos := by
    intro pos hpos
    exact read16_writeBytes_ne _ _ _ _ (Or.inl (by omega))
  subst hok
  have hlow : (ItemPage.mk p.len (writeBytes p.buf a item)).lower = p.lower := by
    unfold ItemPage.lower
    exact hreg P_LOWER (by unfold P_LOWER; omega)
  have hup : (ItemPage.mk p.len (writeBytes p.buf a item)).upper = p.upper := by
    unfold ItemPage.upper
    exact hreg P_UPPER (by unfold P_UPPER; omega)
  have hnum' : (ItemPage.mk p.len (writeBytes p.buf a item)).numLinePointers =
      p.numLinePointers := by
    unfold ItemPage.numLinePointers
    rw [hlow]
  refine ⟨hlen, ?_, ?_, ?_, ?_, ?_⟩
  · rw [hlow, hP]; exact hl4
  · rw [hlow, hup]; exact hlu
  · rw [hup]; exact hul
  · rw [hlow, hnum', hP, hLP]; exact hnum
  · intro j hj1 hj2
    rw [hnum'] at hj2
    have hjp : lpPos j = 4 * j := lpPos_eq j hj1
    have hjlow : lpPos j + 2 + 1 < p.lower := by
      rw [hjp]
      omega
    have e1 : read16 (writeBytes p.buf a item) (lpPos j) = read16 p.buf (lpPos j) :=
      hreg _ (by omega)
    have e2 : read16 (writeBytes p.buf a item) (lpPos j + 2) = read16 p.buf (lpPos j + 2) :=
      hreg _ (by omega)
    have hold := hlps j hj1 hj2
    unfold ItemPage.linePointer at hold ⊢
    dsimp only at hold ⊢
    rw [e1, e2, hup]
    exact hold

theorem freeSpace_eq (p : ItemPage) :
    p.freeSpace = p.upper - p.lower - LINE_POINTER_SIZE := by
  unfold ItemPage.freeSpace
  split <;> omega

/-- C8 (amended): `init_item_page` establishes the framing invariant
(`HEADER ≤ lower ≤ upper ≤ PAGE_END`, the line-pointer array fills
exactly `[HEADER, lower)`, every item lies in `[upper, PAGE_END)`), and
the invariant is preserved by every successful `put_item` whose item is
nonempty and fits in the current free space and by every successful
`set_item` on a valid slot; `get_free_space` always equals
`upper − lower − LINE_POINTER_SIZE` (truncated at zero). -/
theorem item_page_framing :
    (∀ len, P_POINTERS ≤ len → len < 65536 → PageInv (initItemPage len)) ∧
    (∀ p item target ow p' off, PageInv p → 0 < item.length →
      item.length ≤ p.freeSpace → putItem p item target ow = Except.ok (p', off) →
      PageInv p') ∧
    (∀ p offset item p', PageInv p → 1 ≤ offset → offset ≤ p.numLinePointers →
      setItem p offset item = Except.ok p' → PageInv p') ∧
    (∀ p : ItemPage, p.freeSpace = p.upper - p.lower - LINE_POINTER_SIZE) :=
  ⟨init_page_inv,
   fun p item target ow p' off hInv hpos hfit hok =>
     putItem_inv p item target ow p' off hInv hpos hfit hok,
   fun p offset item p' hInv h1 h2 hok => setItem_inv p offset item p' hInv h1 h2 hok,
   freeSpace_eq⟩

set_option maxRecDepth 4096 in
/-- C8 (counterexample): on a freshly initialized 64-byte payload
(free space 56), a single `put_item` of a 60-byte item succeeds and
leaves `lower = 8 > upper = 4`, violating `lower ≤ upper`. -/
theorem putItem_overflow_counterexample :
    ∃ pr, putItem (initItemPage 64) (List.replicate 60 7) none false =
        Except.ok pr ∧
      pr.1.lower = 8 ∧ pr.1.upper = 4 ∧ pr.1.upper < pr.1.lower ∧
      60 > (initItemPage 64).freeSpace := by
  refine ⟨_, rfl, ?_, ?_, ?_, ?_⟩ <;> decide

def c8Put : Except PageError (ItemPage × Nat) :=
  putItem (initItemPage 64) [7, 7, 7] none false

def c8Page : ItemPage := ((c8Put.toOption).map Prod.fst).getD ⟨0, fun _ => 0⟩

/-- Witness for C8 (amended) on a 64-byte payload: the initialized page
satisfies the invariant and a fitting 3-byte `put_item` preserves it. -/
theorem item_page_framing_witness :
    P_POINTERS ≤ 64 ∧ (64 : Nat) < 65536 ∧
    PageInv (initItemPage 64) ∧
    (0 : Nat) < 3 ∧ 3 ≤ (initItemPage 64).freeSpace ∧
    c8Put = Except.ok (c8Page, 1) ∧
    PageInv c8Page :=
  ⟨by decide, by decide,
   item_page_framing.1 64 (by decide) (by decide),
   by decide, by decide, rfl,
   item_page_framing.2.1 (initItemPage 64) [7, 7, 7] none false c8Page 1
     (item_page_framing.1 64 (by decide) (by decide)) (by decide) (by decide) rfl⟩

/-! ## Physical redo records
(src/am/heap/heap_log.rs, src/am/btree/btree_log.rs,
src/am/heap/heap_page.rs, src/am/btree/btree_page.rs)

Pages are full `PAGE_SIZE` byte buffers with the 8-byte header LSN at
offset 0; the heap item payload starts at byte 8, the B-tree item
payload at byte 32 (after the 24-byte B-tree page header).  The
serialized heap tuple (`bincode::serialize` of the reconstructed
`HeapTuple`) enters the model as an opaque byte list parameter. -/

/-- Modelled from the spec: `PAGE_SIZE` lives in `storage/consts.rs`,
which is not in the provided sources; the spec gives "a fixed constant
(e.g. 8192)". -/
def PAGE_SIZE : Nat := 8192

structure HPage where
  buffer : Nat → Nat
  dirty : Bool

/-- Little-endian u32 write. -/
def write32 (buf : Nat → Nat) (off v : Nat) : Nat → Nat :=
  fun i => if off ≤ i ∧ i < off + 4 then v / 256 ^ (i - off) % 256 else buf i

/-- Little-endian u32 read. -/
def read32 (buf : Nat → Nat) (off : Nat) : Nat :=
  buf off + 256 * (buf (off + 1) + 256 * (buf (off + 2) + 256 * buf (off + 3)))

/-- Little-endian u64 write. -/
def write64 (buf : Nat → Nat) (off v : Nat) : Nat → Nat :=
  fun i => if off ≤ i ∧ i < off + 8 then v / 256 ^ (i - off) % 256 else buf i

/-- `DiskPageWriter::set_lsn` (src/storage/mod.rs lines 255-259). -/
def setLsn (buf : Nat → Nat) (lsn : Nat) : Nat → Nat := write64 buf 0 lsn

theorem getLsn_setLsn (buf : Nat → Nat) (lsn : Nat) (h : lsn < 2 ^ 64) :
    getLsn (setLsn buf lsn) = lsn := by
  unfold getLsn read64 setLsn write64
  norm_num
  omega

/-- `HeapPageReader::get_lower` / `get_upper` (heap payload begins at
byte 8 of the page). -/
def hpLower (buf : Nat → Nat) : Nat := read16 buf 8

def hpUpper (buf : Nat → Nat) : Nat := read16 buf 10

/-- `HeapPageReader::is_new`. -/
def hpIsNew (buf : Nat → Nat) : Bool := hpUpper buf == 0

/-- `HeapPageReader::num_line_pointers`. -/
def hpNumLinePointers (buf : Nat → Nat) : Nat :=
  if hpLower buf < P_POINTERS then 0 else (hpLower buf - P_POINTERS) / LINE_POINTER_SIZE

/-- `HeapPageViewMut::init_page` (src/am/heap/heap_page.rs lines
125-133): zero the payload, `lower = P_POINTERS`,
`upper = payload length`. -/
def hpInit (buf : Nat → Nat) : Nat → Nat :=
  write16 (write16 (fun i => if 8 ≤ i ∧ i < PAGE_SIZE then 0 else buf i) 8 P_POINTERS)
    10 (PAGE_SIZE - 8)

/-- `HeapPageViewMut::put_tuple` (src/am/heap/heap_page.rs lines
145-188).  Unlike the generic `put_item`, heap line-pointer slots are
0-based and `limit = num_line_pointers` (no shuffle, no overwrite
flag). -/
def hpPutTuple (buf : Nat → Nat) (tuple : List Nat) (target : Option Nat) :
    Except PageError ((Nat → Nat) × Nat) :=
  let lower := hpLower buf
  let upper := hpUpper buf
  if lower < P_POINTERS ∨ lower > upper ∨ upper > PAGE_SIZE - 8 then
    Except.error PageError.dataCorrupted
  else
    let upper' := (upper + 65536 - tuple.length % 65536) % 65536
    let limit := hpNumLinePointers buf
    let offset := target.getD limit
    if offset > limit then Except.error PageError.invalidArgument
    else
      let buf2 := write16 (write16 buf (12 + offset * LINE_POINTER_SIZE) upper')
        (12 + offset * LINE_POINTER_SIZE + 2) (tuple.length % 65536)
      let lower' := if offset = limit then (lower + LINE_POINTER_SIZE) % 65536 else lower
      if upper' + tuple.length > PAGE_SIZE - 8 then Except.error PageError.panicked
      else
        let buf3 := writeBytes buf2 (8 + upper') tuple
        let buf4 := write16 buf3 8 lower'
        let buf5 := write16 buf4 10 upper'
        Except.ok (buf5, offset)

/-- The buffer `HeapInsertLog::apply` redoes into: the page, initialized
first when still new. -/
def heapRedoBase (p : HPage) : Nat → Nat :=
  if hpIsNew p.buffer then hpInit p.buffer else p.buffer

/-- `HeapInsertLog::apply` (src/am/heap/heap_log.rs lines 26-61) at the
page level: no-op when `page.LSN >= lsn`, else initialize a new page,
redo the insert at the recorded offset, stamp the LSN, mark dirty.
`ser` is the serialized reconstructed tuple. -/
def heapInsertApply (ser : List Nat) (offset lsn : Nat) (p : HPage) :
    Except PageError HPage :=
  if lsn ≤ getLsn p.buffer then Except.ok p
  else
    match hpPutTuple (heapRedoBase p) ser (some offset) with
    | Except.error e => Except.error e
    | Except.ok (buf, _) => Except.ok ⟨setLsn buf lsn, true⟩

/-- The B-tree data page's item payload (starts at byte 32 of the page:
8-byte LSN plus 24-byte B-tree header). -/
def btreeItemPage (buf : Nat → Nat) : ItemPage :=
  ⟨PAGE_SIZE - 32, fun i => buf (32 + i)⟩

/-- Re-plant an item payload into the full page buffer. -/
def btreeSetPayload (buf pl : Nat → Nat) : Nat → Nat :=
  fun i => if 32 ≤ i then pl (i - 32) else buf i

/-- `BTreeDataPageViewMut::init_page`: zero the B-tree header, then
`init_item_page` on the item payload. -/
def btInit (buf : Nat → Nat) : Nat → Nat :=
  write16 (write16 (fun i => if 8 ≤ i ∧ i < PAGE_SIZE then 0 else buf i) 32 P_POINTERS)
    34 (PAGE_SIZE - 32)

/-- The buffer a B-tree redo works on: the page, initialized first when
still new (`is_new` reads the item-page `upper` at byte 34). -/
def btreeRedoBase (p : HPage) : Nat → Nat :=
  if read16 p.buffer 34 == 0 then btInit p.buffer else p.buffer

/-- `BTreeInsertLog::apply` (src/am/btree/btree_log.rs lines 26-53) at
the page level. -/
def btreeInsertApply (tupleData : List Nat) (offset lsn : Nat) (p : HPage) :
    Except PageError HPage :=
  if lsn ≤ getLsn p.buffer then Except.ok p
  else
    match putItem (btreeItemPage (btreeRedoBase p)) tupleData (some offset) false with
    | Except.error e => Except.error e
    | Except.ok (pl, _) =>
        Except.ok ⟨setLsn (btreeSetPayload (btreeRedoBase p) pl.buf) lsn, true⟩

/-- The `put_item` loop over `root_tuples` in `BTreeNewRootLog::apply`. -/
def putTuplesLoop : ItemPage → List (List Nat) → Nat → Except PageError ItemPage
  | pl, [], _ => Except.ok pl
  | pl, t :: ts, off =>
      match putItem pl t (some off) false with
      | Except.error e => Except.error e
      | Except.ok (pl', _) => putTuplesLoop pl' ts (off + 1)

/-- The header rebuild in the new-root redo: `set_prev(0)`,
`set_next(0)`, `set_level`, `set_page_type` (leaf iff level 0),
`set_as_root` (`IS_ROOT = 4`); `set_flags x` writes `get_flags() | x`
where `get_flags` truncates to the three known flag bits. -/
def newRootHeader (level : Nat) (buf0 : Nat → Nat) : Nat → Nat :=
  let buf1 := write64 buf0 8 0
  let buf2 := write64 buf1 16 0
  let buf3 := write32 buf2 24 level
  let tbits := if level = 0 then 1 else 0
  let f3 := read32 buf3 28 &&& 7
  let buf4 := write32 buf3 28 (f3 ||| (f3 ||| tbits))
  let f4 := read32 buf4 28 &&& 7
  write32 buf4 28 (f4 ||| (f4 ||| 4))

/-- Root-page half of `BTreeNewRootLog::apply` (src/am/btree/btree_log.rs
lines 77-106): guarded by the LSN check; rebuilds links, level, flags and
tuples. -/
def btreeNewRootRoot (level offset : Nat) (rootTuples : List (List Nat)) (lsn : Nat)
    (p : HPage) : Except PageError HPage :=
  if lsn ≤ getLsn p.buffer then Except.ok p
  else
    match putTuplesLoop (btreeItemPage (newRootHeader level (btreeRedoBase p)))
        rootTuples offset with
    | Except.error e => Except.error e
    | Except.ok pl =>
        Except.ok ⟨setLsn (btreeSetPayload (newRootHeader level (btreeRedoBase p)) pl.buf)
          lsn, true⟩

/-- Meta-page half of `BTreeNewRootLog::apply` (lines 108-117):
`set_root` (u64 at byte 36: payload byte 4) and `set_lsn`, with no LSN
guard. -/
def btreeNewRootMeta (rootPageNum lsn : Nat) (m : HPage) : HPage :=
  ⟨setLsn (write64 m.buffer 36 rootPageNum) lsn, true⟩

/-- `BTreeNewRootLog::apply`: root page first, then the meta page. -/
def btreeNewRootApply (level rootPageNum offset : Nat) (rootTuples : List (List Nat))
    (lsn : Nat) (root meta : HPage) : Except PageError (HPage × HPage) :=
  match btreeNewRootRoot level offset rootTuples lsn root with
  | Except.error e => Except.error e
  | Except.ok root' => Except.ok (root', btreeNewRootMeta rootPageNum lsn meta)

theorem newRootMeta_idem (rpn lsn : Nat) (m : HPage) :
    btreeNewRootMeta rpn lsn (btreeNewRootMeta rpn lsn m) = btreeNewRootMeta rpn lsn m := by
  unfold btreeNewRootMeta
  congr 1
  funext i
  unfold setLsn write64
  dsimp only
  split_ifs <;> rfl

theorem newRootRoot_lsn (level offset lsn : Nat) (rts : List (List Nat)) (p p' : HPage)
    (h64 : lsn < 2 ^ 64)
    (hok : btreeNewRootRoot level offset rts lsn p = Except.ok p') :
    lsn ≤ getLsn p'.buffer := by
  unfold btreeNewRootRoot at hok
  by_cases hg : lsn ≤ getLsn p.buffer
  · rw [if_pos hg] at hok
    rw [Except.ok.injEq] at hok
    subst hok
    exact hg
  · rw [if_neg hg] at hok
    rcases hloop : putTuplesLoop (btreeItemPage (newRootHeader level (btreeRedoBase p)))
        rts offset with e | pl
    all_goals rw [hloop] at hok
    · cases hok
    · rw [Except.ok.injEq] at hok
      subst hok
      dsimp only
      rw [getLsn_setLsn _ _ h64]

/-- C2 (counterexample): a `BTreeNewRoot` record with `lsn = 5` applied
to a meta page whose header LSN is 10 (≥ 5): the root page hits the LSN
guard and is untouched, but the meta page is rewritten unconditionally —
its LSN drops from 10 to 5 — so the redo does not leave a page with
`page.LSN >= lsn` unchanged. -/
theorem btree_newroot_meta_counterexample :
    ∃ pr, btreeNewRootApply 1 3 1 [] 5
        ⟨fun i => if i = 0 then 5 else 0, false⟩
        ⟨fun i => if i = 0 then 10 else 0, false⟩ = Except.ok pr ∧
      (5 : Nat) ≤ getLsn (fun i => if i = 0 then 10 else 0) ∧
      getLsn (fun i => if i = 0 then (10 : Nat) else 0) = 10 ∧
      getLsn pr.2.buffer = 5 ∧ pr.2.dirty = true := by
  refine ⟨_, rfl, by decide, by decide, by decide, rfl⟩

/-- C2 (amended): the heap-insert, B-tree-insert and B-tree-new-root
root-page redos leave any page with `page.LSN >= lsn` unchanged; the
new-root meta page is rewritten unconditionally; and applying any of
these records twice is observationally equal to applying them once. -/
theorem redo_lsn_guard_idempotent :
    (∀ ser offset lsn (p : HPage), lsn ≤ getLsn p.buffer →
      heapInsertApply ser offset lsn p = Except.ok p) ∧
    (∀ td offset lsn (p : HPage), lsn ≤ getLsn p.buffer →
      btreeInsertApply td offset lsn p = Except.ok p) ∧
    (∀ level offset rts lsn (p : HPage), lsn ≤ getLsn p.buffer →
      btreeNewRootRoot level offset rts lsn p = Except.ok p) ∧
    (∀ ser offset lsn (p p' : HPage), lsn < 2 ^ 64 →
      heapInsertApply ser offset lsn p = Except.ok p' →
      heapInsertApply ser offset lsn p' = Except.ok p') ∧
    (∀ td offset lsn (p p' : HPage), lsn < 2 ^ 64 →
      btreeInsertApply td offset lsn p = Except.ok p' →
      btreeInsertApply td offset lsn p' = Except.ok p') ∧
    (∀ level rpn offset rts lsn (root meta r' m' : HPage), lsn < 2 ^ 64 →
      btreeNewRootApply level rpn offset rts lsn root meta = Except.ok (r', m') →
      btreeNewRootApply level rpn offset rts lsn r' m' = Except.ok (r', m')) := by
  have hguardH : ∀ ser offset lsn (p : HPage), lsn ≤ getLsn p.buffer →
      heapInsertApply ser offset lsn p = Except.ok p := by
    intro ser offset lsn p h
    unfold heapInsertApply
    rw [if_pos h]
  have hguardB : ∀ td offset lsn (p : HPage), lsn ≤ getLsn p.buffer →
      btreeInsertApply td offset lsn p = Except.ok p := by
    intro td offset lsn p h
    unfold btreeInsertApply
    rw [if_pos h]
  have hguardR : ∀ level offset rts lsn (p : HPage), lsn ≤ getLsn p.buffer →
      btreeNewRootRoot level offset rts lsn p = Except.ok p := by
    intro level offset rts lsn p h
    unfold btreeNewRootRoot
    rw [if_pos h]
  refine ⟨hguardH, hguardB, hguardR, ?_, ?_, ?_⟩
  · intro ser offset lsn p p' h64 hok
    by_cases hg : lsn ≤ getLsn p.buffer
    · rw [hguardH ser offset lsn p hg, Except.ok.injEq] at hok
      subst hok
      exact hguardH ser offset lsn p hg
    · unfold heapInsertApply at hok
      rw [if_neg hg] at hok
      rcases hput : hpPutTuple (heapRedoBase p) ser (some offset) with e | z
      all_goals rw [hput] at hok
      · cases hok
      · obtain ⟨zb, zo⟩ := z
        rw [Except.ok.injEq] at hok
        subst hok
        exact hguardH ser offset lsn _ (le_of_eq (getLsn_setLsn zb lsn h64).symm)
  · intro td offset lsn p p' h64 hok
    by_cases hg : lsn ≤ getLsn p.buffer
    · rw [hguardB td offset lsn p hg, Except.ok.injEq] at hok
      subst hok
      exact hguardB td offset lsn p hg
    · unfold btreeInsertApply at hok
      rw [if_neg hg] at hok
      rcases hput : putItem (btreeItemPage (btreeRedoBase p)) td (some offset) false
        with e | z
      all_goals rw [hput] at hok
      · cases hok
      · obtain ⟨zb, zo⟩ := z
        rw [Except.ok.injEq] at hok
        subst hok
        exact hguardB td offset lsn _ (le_of_eq (getLsn_setLsn _ lsn h64).symm)
  · intro level rpn offset rts lsn root meta r' m' h64 hok
    unfold btreeNewRootApply at hok ⊢
    rcases hroot : btreeNewRootRoot level offset rts lsn root with e | r0
    all_goals rw [hroot] at hok
    · cases hok
    · rw [Except.ok.injEq, Prod.mk.injEq] at hok
      obtain ⟨hr, hm⟩ := hok
      subst hr
      subst hm
      rw [hguardR level offset rts lsn r0
        (newRootRoot_lsn level offset lsn rts root r0 h64 hroot)]
      rw [newRootMeta_idem]

/-- Witness for C2 (amended): a heap-insert redo with `lsn = 5` against
a page whose header LSN is 7 is a no-op, and applying it twice from a
fresh page equals applying it once. -/
theorem redo_lsn_guard_idempotent_witness :
    (5 : Nat) ≤ getLsn (fun i => if i = 0 then 7 else 0) ∧
    heapInsertApply [1, 2] 0 5 ⟨fun i => if i = 0 then 7 else 0, false⟩ =
      Except.ok ⟨fun i => if i = 0 then 7 else 0, false⟩ ∧
    (5 : Nat) < 2 ^ 64 ∧
    ∀ p' : HPage, heapInsertApply [1, 2] 0 5 ⟨fun _ => 0, false⟩ = Except.ok p' →
      heapInsertApply [1, 2] 0 5 p' = Except.ok p' :=
  ⟨by decide,
   redo_lsn_guard_idempotent.1 [1, 2] 0 5 ⟨fun i => if i = 0 then 7 else 0, false⟩
     (by decide),
   by decide,
   fun p' hok =>
     redo_lsn_guard_idempotent.2.2.2.1 [1, 2] 0 5 ⟨fun _ => 0, false⟩ p' (by decide) hok⟩

/-! ## B-tree page search (src/am/btree.rs lines 462-538)

A page enters the search through three observables: its type, whether it
is rightmost (`next == 0`), and its line-pointer count.  The
deserialized-key comparison of `compare_key` (user comparator plus
item-pointer tie-break) is an oracle `rawCmp : Nat → Ordering` giving
`search key` vs `stored key at offset`; `compare_key` overrides it with
`Greater` at the first key offset of an internal page (the −∞ rule). -/

inductive BTreeNodeType where
  | meta
  | internal
  | leaf
  deriving DecidableEq, Repr

structure BTreeSearchPage where
  pageType : BTreeNodeType
  rightmost : Bool
  numLinePointers : Nat

/-- `BTreePageReader::first_key_offset` (src/am/btree/btree_page.rs
lines 91-98): the high key lives at offset 1; the first real key follows
it except on rightmost pages. -/
def BTreeSearchPage.firstKeyOffset (pg : BTreeSearchPage) : Nat :=
  1 + (if pg.rightmost then 0 else 1)

/-- `BTree::compare_key` (src/am/btree.rs lines 462-493). -/
def compareKey (pg : BTreeSearchPage) (rawCmp : Nat → Ordering) (offset : Nat) : Ordering :=
  if pg.pageType = BTreeNodeType.internal ∧ offset = pg.firstKeyOffset then Ordering.gt
  else rawCmp offset

def ordToNat : Ordering → Nat
  | Ordering.lt => 0
  | Ordering.eq => 1
  | Ordering.gt => 2

/-- The `while low < high` loop of `binary_search_page`. -/
def bsLoop (pg : BTreeSearchPage) (rawCmp : Nat → Ordering) (cond : Ordering)
    (low high : Nat) : Nat :=
  if h : low < high then
    let mid := low + (high - low) / 2
    if ordToNat (compareKey pg rawCmp mid) ≥ ordToNat cond then
      bsLoop pg rawCmp cond (mid + 1) high
    else
      bsLoop pg rawCmp cond low mid
  else low
termination_by high - low
decreasing_by
  · omega
  · omega

/-- `BTree::binary_search_page` (src/am/btree.rs lines 496-538). -/
def binarySearchPage (pg : BTreeSearchPage) (rawCmp : Nat → Ordering)
    (nextKey : Bool) : Nat :=
  let low := pg.firstKeyOffset
  let high := pg.numLinePointers + 1
  let cond := if nextKey then Ordering.eq else Ordering.gt
  if low > high then low
  else
    let r := bsLoop pg rawCmp cond low high
    if pg.pageType = BTreeNodeType.leaf then r else r - 1

theorem compareKey_chain (pg : BTreeSearchPage) (rawCmp : Nat → Ordering)
    (hanti : ∀ i, pg.firstKeyOffset ≤ i → i + 1 ≤ pg.numLinePointers →
      compareKey pg rawCmp (i + 1) = Ordering.gt → compareKey pg rawCmp i = Ordering.gt) :
    ∀ d i j, pg.firstKeyOffset ≤ i → i ≤ j → j ≤ pg.numLinePointers → j - i = d →
      compareKey pg rawCmp j = Ordering.gt → compareKey pg rawCmp i = Ordering.gt := by
  intro d
  induction d with
  | zero =>
      intro i j h1 h2 h3 hd hj
      have : i = j := by omega
      rw [this]
      exact hj
  | succ k ih =>
      intro i j h1 h2 h3 hd hj
      have hij : i < j := by omega
      have : compareKey pg rawCmp (i + 1) = Ordering.gt :=
        ih (i + 1) j (by omega) (by omega) h3 (by omega) hj
      exact hanti i h1 (by omega) this

theorem bsLoop_spec (pg : BTreeSearchPage) (rawCmp : Nat → Ordering)
    (hanti : ∀ i, pg.firstKeyOffset ≤ i → i + 1 ≤ pg.numLinePointers →
      compareKey pg rawCmp (i + 1) = Ordering.gt → compareKey pg rawCmp i = Ordering.gt) :
    ∀ d low high, high - low = d →
    pg.firstKeyOffset ≤ low → low ≤ high → high ≤ pg.numLinePointers + 1 →
    (∀ i, pg.firstKeyOffset ≤ i → i < low → compareKey pg rawCmp i = Ordering.gt) →
    (∀ i, high ≤ i → i ≤ pg.numLinePointers → ¬ compareKey pg rawCmp i = Ordering.gt) →
    pg.firstKeyOffset ≤ bsLoop pg rawCmp Ordering.gt low high ∧
    bsLoop pg rawCmp Ordering.gt low high ≤ pg.numLinePointers + 1 ∧
    (∀ i, pg.firstKeyOffset ≤ i → i < bsLoop pg rawCmp Ordering.gt low high →
      compareKey pg rawCmp i = Ordering.gt) ∧
    (bsLoop pg rawCmp Ordering.gt low high ≤ pg.numLinePointers →
      ¬ compareKey pg rawCmp (bsLoop pg rawCmp Ordering.gt low high) = Ordering.gt) := by
  intro d
  induction d using Nat.strong_induction_on with
  | _ d ih =>
      intro low high hd hfl hlh hhn hpre hsuf
      by_cases hlt : low < high
      · rw [bsLoop, dif_pos hlt]
        set mid := low + (high - low) / 2 with hmid
        have hmlow : low ≤ mid := by omega
        have hmhigh : mid < high := by omega
        by_cases hcmp : ordToNat (compareKey pg rawCmp mid) ≥ ordToNat Ordering.gt
        · rw [if_pos hcmp]
          have hmidgt : compareKey pg rawCmp mid = Ordering.gt := by
            rcases hc : compareKey pg rawCmp mid with _ | _ | _ <;>
              rw [hc] at hcmp <;> first | rfl | (exfalso; revert hcmp; decide)
          have hpre' : ∀ i, pg.firstKeyOffset ≤ i → i < mid + 1 →
              compareKey pg rawCmp i = Ordering.gt := by
            intro i h1 h2
            by_cases hil : i < low
            · exact hpre i h1 hil
            · exact compareKey_chain pg rawCmp hanti (mid - i) i mid h1 (by omega)
                (by omega) (by omega) hmidgt
          exact ih (high - (mid + 1)) (by omega) (mid + 1) high rfl (by omega)
            (by omega) hhn hpre' hsuf
        · rw [if_neg hcmp]
          have hmidng : ¬ compareKey pg rawCmp mid = Ordering.gt := by
            intro hc
            rw [hc] at hcmp
            exact hcmp (le_refl _)
          have hsuf' : ∀ i, mid ≤ i → i ≤ pg.numLinePointers →
              ¬ compareKey pg rawCmp i = Ordering.gt := by
            intro i h1 h2 hc
            exact hmidng (compareKey_chain pg rawCmp hanti (i - mid) mid i
              (by omega) h1 h2 (by omega) hc)
          exact ih (mid - low) (by omega) low mid rfl hfl (by omega) (by omega)
            hpre hsuf'
      · rw [bsLoop, dif_neg hlt]
        have hle : low = high := by omega
        refine ⟨hfl, by omega, hpre, ?_⟩
        intro hln
        exact hsuf low (by omega) hln

/-- C9: with the −∞ rule built into `compare_key` (the slot at
`first_key_offset` of an internal page always compares `Greater`),
`binary_search_page` computes the lower-bound slot `lb` for the searched
(key, item-pointer) — the least slot whose stored key is not below the
search key — and returns `lb` on a leaf page and `lb - 1` (the child
slot to descend into) on an internal page.  Hypotheses: the page has its
mandatory pointers (`first_key_offset ≤ num_line_pointers + 1`) and the
stored keys are sorted (the comparison oracle is antitone across
slots). -/
theorem binary_search_lower_bound (pg : BTreeSearchPage) (rawCmp : Nat → Ordering)
    (hfk : pg.firstKeyOffset ≤ pg.numLinePointers + 1)
    (hanti : ∀ i, pg.firstKeyOffset ≤ i → i + 1 ≤ pg.numLinePointers →
      compareKey pg rawCmp (i + 1) = Ordering.gt → compareKey pg rawCmp i = Ordering.gt) :
    ∃ lb, pg.firstKeyOffset ≤ lb ∧ lb ≤ pg.numLinePointers + 1 ∧
      (∀ i, pg.firstKeyOffset ≤ i → i < lb → compareKey pg rawCmp i = Ordering.gt) ∧
      (lb ≤ pg.numLinePointers → ¬ compareKey pg rawCmp lb = Ordering.gt) ∧
      binarySearchPage pg rawCmp false =
        (if pg.pageType = BTreeNodeType.leaf then lb else lb - 1) ∧
      (pg.pageType = BTreeNodeType.internal →
        compareKey pg rawCmp pg.firstKeyOffset = Ordering.gt) := by
  obtain ⟨h1, h2, h3, h4⟩ := bsLoop_spec pg rawCmp hanti
    (pg.numLinePointers + 1 - pg.firstKeyOffset) pg.firstKeyOffset
    (pg.numLinePointers + 1) rfl (le_refl _) hfk (le_refl _)
    (fun i _ hi => absurd hi (by omega))
    (fun i hi hi' => absurd hi (by omega))
  refine ⟨bsLoop pg rawCmp Ordering.gt pg.firstKeyOffset (pg.numLinePointers + 1),
    h1, h2, h3, h4, ?_, ?_⟩
  · unfold binarySearchPage
    rw [if_neg (by omega)]
    rfl
  · intro hint
    unfold compareKey
    rw [if_pos ⟨hint, rfl⟩]

/-- Witness for C9: a rightmost leaf page with three keys where the
search key falls after slot 2 (`rawCmp` is `gt, gt, lt` on slots
1..3): the lower bound is slot 3. -/
theorem binary_search_lower_bound_witness :
    (BTreeSearchPage.mk BTreeNodeType.leaf true 3).firstKeyOffset ≤ 3 + 1 ∧
    (∀ i, (BTreeSearchPage.mk BTreeNodeType.leaf true 3).firstKeyOffset ≤ i → i + 1 ≤ 3 →
      compareKey (BTreeSearchPage.mk BTreeNodeType.leaf true 3)
        (fun n => if n ≤ 2 then Ordering.gt else Ordering.lt) (i + 1) = Ordering.gt →
      compareKey (BTreeSearchPage.mk BTreeNodeType.leaf true 3)
        (fun n => if n ≤ 2 then Ordering.gt else Ordering.lt) i = Ordering.gt) ∧
    ∃ lb, (BTreeSearchPage.mk BTreeNodeType.leaf true 3).firstKeyOffset ≤ lb ∧
      lb ≤ 3 + 1 ∧
      (∀ i, (BTreeSearchPage.mk BTreeNodeType.leaf true 3).firstKeyOffset ≤ i → i < lb →
        compareKey (BTreeSearchPage.mk BTreeNodeType.leaf true 3)
          (fun n => if n ≤ 2 then Ordering.gt else Ordering.lt) i = Ordering.gt) ∧
      (lb ≤ 3 → ¬ compareKey (BTreeSearchPage.mk BTreeNodeType.leaf true 3)
          (fun n => if n ≤ 2 then Ordering.gt else Ordering.lt) lb = Ordering.gt) ∧
      binarySearchPage (BTreeSearchPage.mk BTreeNodeType.leaf true 3)
          (fun n => if n ≤ 2 then Ordering.gt else Ordering.lt) false =
        (if (BTreeSearchPage.mk BTreeNodeType.leaf true 3).pageType = BTreeNodeType.leaf
          then lb else lb - 1) ∧
      ((BTreeSearchPage.mk BTreeNodeType.leaf true 3).pageType = BTreeNodeType.internal →
        compareKey (BTreeSearchPage.mk BTreeNodeType.leaf true 3)
          (fun n => if n ≤ 2 then Ordering.gt else Ordering.lt)
          (BTreeSearchPage.mk BTreeNodeType.leaf true 3).firstKeyOffset = Ordering.gt) := by
  refine ⟨by decide, ?_, ?_⟩
  · intro i h1 h2 h3
    unfold compareKey at h3 ⊢
    rw [if_neg (by simp)] at h3 ⊢
    dsimp only at h3 ⊢
    by_cases hi : i ≤ 2
    · rw [if_pos hi]
    · rw [if_neg (by omega : ¬ i + 1 ≤ 2)] at h3
      cases h3
  · exact binary_search_lower_bound (BTreeSearchPage.mk BTreeNodeType.leaf true 3)
      (fun n => if n ≤ 2 then Ordering.gt else Ordering.lt) (by decide)
      (by
        intro i h1 h2 h3
        unfold compareKey at h3 ⊢
        rw [if_neg (by simp)] at h3 ⊢
        dsimp only at h3 ⊢
        by_cases hi : i ≤ 2
        · rw [if_pos hi]
        · rw [if_neg (by omega : ¬ i + 1 ≤ 2)] at h3
          cases h3)

/-! ## WAL segment append and read-back (src/wal/segment.rs, src/wal/reader.rs) -/

/-- `SEGMENT_PAGE_SIZE` (src/wal/segment.rs line 15): `0x2000`. -/
def SEGMENT_PAGE_SIZE : Nat := 8192

/-- `RECORD_HEADER_SIZE` (src/wal/segment.rs line 16). -/
def RECORD_HEADER_SIZE : Nat := 7

/-- One shift-and-conditionally-xor step of the reflected CRC-32
computation (polynomial `0xEDB88320`). -/
def crc32Step (c : Nat) : Nat :=
  if c % 2 = 1 then (c / 2) ^^^ 0xEDB88320 else c / 2

/-- Folding one input byte into a CRC-32 state: xor the byte into the low
bits, then shift eight times. -/
def crc32Byte (c b : Nat) : Nat :=
  crc32Step (crc32Step (crc32Step (crc32Step
    (crc32Step (crc32Step (crc32Step (crc32Step (c ^^^ b % 256))))))))

/-- Modelled from the spec: the segment code checksums each chunk with
`crc32::checksum_ieee` from the external `crc` crate, the standard
reflected CRC-32 (init `0xFFFFFFFF`, final xor `0xFFFFFFFF`,
polynomial `0xEDB88320`). -/
def crc32 (l : List Nat) : Nat :=
  (l.foldl crc32Byte 4294967295) ^^^ 4294967295

/-- Write a single byte into a page buffer
(`self.page[self.page_allocated] = record_type as u8`). -/
def write8 (buf : Nat → Nat) (off v : Nat) : Nat → Nat :=
  fun i => if i = off then v else buf i

/-- The consecutive bytes `[start, start + cnt)` of a buffer, as a list
(a slice `&self.page[start..start+cnt]`). -/
def pageSlice (page : Nat → Nat) (start cnt : Nat) : List Nat :=
  (List.range cnt).map (fun k => page (start + k))

/-- A WAL segment file on disk: current size and contents. -/
structure SegFile where
  size : Nat
  data : Nat → Nat

/-- Appending the byte range `[lo, hi)` of a page buffer at the end of
the file (`seek(SeekFrom::End(0))` then `write_all(&self.page[lo..hi])`). -/
def SegFile.appendSlice (f : SegFile) (page : Nat → Nat) (lo hi : Nat) : SegFile :=
  { size := f.size + (hi - lo),
    data := fun i => if i < f.size then f.data i else page (lo + (i - f.size)) }

/-- `Segment` (src/wal/segment.rs lines 41-49): the in-memory page
buffer, its watermarks, and the backing file. -/
structure Segment where
  segno : Nat
  page : Nat → Nat
  pageAllocated : Nat
  pageFlushed : Nat
  pageStart : Nat
  capacity : Nat
  file : SegFile

/-- `Segment::create` (lines 62-82): `check_capacity` then a zeroed page
over an empty file. -/
def segmentCreate (segno capacity : Nat) : Option Segment :=
  if RECORD_HEADER_SIZE < capacity then
    some ⟨segno, fun _ => 0, 0, 0, 0, capacity, ⟨0, fun _ => 0⟩⟩
  else none

/-- `Segment::flush_page` (lines 194-217): write `page[flushed..allocated]`
at the end of the file; on reset (requested, or fewer than
`RECORD_HEADER_SIZE` bytes would remain) first extend `allocated` to the
page end, and afterwards zero the page and advance `page_start`. -/
def flushPageSeg (s : Segment) (reset : Bool) : Segment :=
  if reset = true ∨ SEGMENT_PAGE_SIZE ≤ s.pageAllocated + RECORD_HEADER_SIZE then
    { s with
      page := (fun _ => 0)
      pageAllocated := 0
      pageFlushed := 0
      pageStart := s.pageStart + SEGMENT_PAGE_SIZE
      file := s.file.appendSlice s.page s.pageFlushed SEGMENT_PAGE_SIZE }
  else
    { s with
      pageFlushed := s.pageAllocated
      file := s.file.appendSlice s.page s.pageFlushed s.pageAllocated }

/-- The page-roll guard at the top of the append loop (lines 143-145):
flush with reset when no room is left for another record header. -/
def segAfterGuard (s : Segment) : Segment :=
  if SEGMENT_PAGE_SIZE - s.pageAllocated ≤ RECORD_HEADER_SIZE then
    flushPageSeg s true
  else s

/-- `chunk_size` (lines 147-150): what still fits on the current page
after its header. -/
def segChunkSize (length alloc : Nat) : Nat :=
  min length (SEGMENT_PAGE_SIZE - alloc - RECORD_HEADER_SIZE)

/-- The `record_type` state machine (lines 153-169), as `u8` values:
0 = None, 1 = Full, 2 = First, 3 = Middle, 4 = Last. -/
def segChunkType (recType : Nat) (lastChunk : Bool) : Nat :=
  match recType with
  | 0 => if lastChunk then 1 else 2
  | 2 => if lastChunk then 4 else 3
  | 3 => if lastChunk then 4 else 3
  | _ => 0

/-- The frame header and data of one chunk, written into the page at
`rs = record_start` (lines 173-181): type byte, little-endian `u16`
length, then the chunk bytes at `rs + 3`. -/
def frameBuf (page : Nat → Nat) (rs ty cz : Nat) (chunk : List Nat) : Nat → Nat :=
  writeBytes (write16 (write8 page rs ty) (rs + 1) cz) (rs + 3) chunk

/-- One loop iteration's writes after the guard (lines 171-185): the
frame, then the CRC-32 of `page[record_start..page_allocated]` as a
little-endian `u32`; `page_allocated` advances past the 7-byte header
plus the chunk. -/
def appendChunk (s : Segment) (ty cz : Nat) (chunk : List Nat) : Segment :=
  { s with
    page := write32 (frameBuf s.page s.pageAllocated ty cz chunk)
      (s.pageAllocated + 3 + cz)
      (crc32 (pageSlice (frameBuf s.page s.pageAllocated ty cz chunk)
        s.pageAllocated (3 + cz))),
    pageAllocated := s.pageAllocated + 3 + cz + 4 }

/-- The `while length > 0` loop of `Segment::append` (lines 142-189).
The `fuel` argument only bounds the iteration count: each iteration
writes at least one record byte, so `fuel = length` always suffices and
the loop is never cut short when called from `segmentAppend`. -/
def appendLoop (record : List Nat) : Nat → Nat → Nat → Nat → Segment → Segment
  | 0, _, _, _, s => s
  | fuel + 1, offset, length, recType, s =>
    if length = 0 then s
    else
      appendLoop record fuel
        (offset + segChunkSize length (segAfterGuard s).pageAllocated)
        (length - segChunkSize length (segAfterGuard s).pageAllocated)
        (segChunkType recType
          (segChunkSize length (segAfterGuard s).pageAllocated == length))
        (appendChunk (segAfterGuard s)
          (segChunkType recType
            (segChunkSize length (segAfterGuard s).pageAllocated == length))
          (segChunkSize length (segAfterGuard s).pageAllocated)
          ((record.drop offset).take
            (segChunkSize length (segAfterGuard s).pageAllocated)))

/-- `Segment::sufficient_capacity` (lines 231-237). -/
def sufficientCapacity (s : Segment) (recordSize : Nat) : Bool :=
  recordSize ≤ SEGMENT_PAGE_SIZE - s.pageAllocated +
    (SEGMENT_PAGE_SIZE - RECORD_HEADER_SIZE) *
      ((s.capacity - s.pageStart) / SEGMENT_PAGE_SIZE - 1)

/-- `Segment::append` (lines 129-192): `None` when the record does not
fit in the segment, otherwise the state after the chunking loop. -/
def segmentAppend (s : Segment) (record : List Nat) : Option Segment :=
  if sufficientCapacity s record.length then
    some (appendLoop record record.length 0 record.length 0 s)
  else none

/-- Appending a sequence of records through `Wal::append` into one
segment. -/
def segmentAppendAll (s : Segment) : List (List Nat) → Option Segment
  | [] => some s
  | r :: rs =>
    match segmentAppend s r with
    | none => none
    | some s2 => segmentAppendAll s2 rs

/-- Errors surfaced by `SegmentView::read_record`. -/
inductive SegError where
  | dataCorrupted : SegError
  | fuelExhausted : SegError
deriving DecidableEq

/-- The byte range `[start, start + cnt)` of a segment file (a slice of
the `mmap`). -/
def fileSlice (f : SegFile) (start cnt : Nat) : List Nat :=
  pageSlice f.data start cnt

/-- The `loop` of `SegmentView::read_record` (src/wal/segment.rs lines
289-351), with `p`, the assembled `buffer` and the `started` flag as
arguments. `fuel` only bounds the iteration count; `p` strictly
increases and every iteration needs `p + RECORD_HEADER_SIZE < size`, so
`fuel = f.size` always suffices. -/
def readLoop (f : SegFile) (offset : Nat) :
    Nat → Nat → List Nat → Bool → Except SegError (Option (List Nat × Nat))
  | 0, _, _, _ => Except.error SegError.fuelExhausted
  | fuel + 1, p, buffer, started =>
    if f.size ≤ p + RECORD_HEADER_SIZE then Except.error SegError.dataCorrupted
    else if f.data p = 0 then
      if f.size ≤ p + 1 + (SEGMENT_PAGE_SIZE - (p + 1) % SEGMENT_PAGE_SIZE) +
          RECORD_HEADER_SIZE ∧ started = false then
        Except.ok none
      else
        readLoop f offset fuel
          (p + 1 + (SEGMENT_PAGE_SIZE - (p + 1) % SEGMENT_PAGE_SIZE)) buffer started
    else if 5 ≤ f.data p then Except.error SegError.dataCorrupted
    else
      if p + 3 + read16 f.data (p + 1) + 4 ≤ f.size then
        if crc32 (fileSlice f p (3 + read16 f.data (p + 1))) ≠
            read32 f.data (p + 3 + read16 f.data (p + 1)) then
          Except.error SegError.dataCorrupted
        else
          if f.data p = 1 ∨ f.data p = 4 then
            Except.ok (some (buffer ++ fileSlice f (p + 3) (read16 f.data (p + 1)),
              p + 3 + read16 f.data (p + 1) + 4 - offset))
          else
            readLoop f offset fuel (p + 3 + read16 f.data (p + 1) + 4)
              (buffer ++ fileSlice f (p + 3) (read16 f.data (p + 1))) true
      else Except.error SegError.dataCorrupted

/-- `SegmentView::read_record` (lines 278-356): `Ok(None)` on an empty
file (no mmap) or when fewer than a record header's worth of bytes
remains past `offset`; otherwise the loop. -/
def readRecord (f : SegFile) (offset : Nat) :
    Except SegError (Option (List Nat × Nat)) :=
  if f.size = 0 then Except.ok none
  else if f.size ≤ offset + RECORD_HEADER_SIZE then Except.ok none
  else readLoop f offset f.size offset [] false

/-- Iterating `WalReaderIterator::next` over a WAL whose records all live
in one segment (src/wal/reader.rs lines 86-138): each `read_record`
advances the position by the consumed length; `Ok(None)` ends the
iteration (with a single segment the retry at the next segment boundary
finds no segment and also yields `Ok(None)`). `fuel` bounds the number
of records returned. -/
def readRecords (f : SegFile) : Nat → Nat → Except SegError (List (List Nat))
  | 0, _ => Except.ok []
  | fuel + 1, pos =>
    match readRecord f pos with
    | Except.error e => Except.error e
    | Except.ok none => Except.ok []
    | Except.ok (some (buf, consumed)) =>
      match readRecords f fuel (pos + consumed) with
      | Except.error e => Except.error e
      | Except.ok rest => Except.ok (buf :: rest)

theorem write8_same (buf : Nat → Nat) (off v : Nat) : write8 buf off v off = v := by
  simp [write8]

theorem write8_ne (buf : Nat → Nat) (off v i : Nat) (h : i ≠ off) :
    write8 buf off v i = buf i := by
  simp [write8, h]

theorem writeBytes_in (buf : Nat → Nat) (pos : Nat) (item : List Nat) (i : Nat)
    (h1 : pos ≤ i) (h2 : i < pos + item.length) :
    writeBytes buf pos item i = item.getD (i - pos) 0 := by
  unfold writeBytes
  rw [if_pos ⟨h1, h2⟩]

theorem write32_ne (buf : Nat → Nat) (off v i : Nat)
    (h : i < off ∨ off + 4 ≤ i) : write32 buf off v i = buf i := by
  unfold write32
  rw [if_neg (by omega)]

theorem read32_write32_same (buf : Nat → Nat) (off v : Nat) (hv : v < 4294967296) :
    read32 (write32 buf off v) off = v := by
  unfold read32 write32
  rw [if_pos (by omega : off ≤ off ∧ off < off + 4),
    if_pos (by omega : off ≤ off + 1 ∧ off + 1 < off + 4),
    if_pos (by omega : off ≤ off + 2 ∧ off + 2 < off + 4),
    if_pos (by omega : off ≤ off + 3 ∧ off + 3 < off + 4)]
  have e0 : off - off = 0 := by omega
  have e1 : off + 1 - off = 1 := by omega
  have e2 : off + 2 - off = 2 := by omega
  have e3 : off + 3 - off = 3 := by omega
  rw [e0, e1, e2, e3]
  norm_num
  omega

theorem crc32Step_lt (c : Nat) (h : c < 4294967296) : crc32Step c < 4294967296 := by
  unfold crc32Step
  have h32 : (4294967296 : Nat) = 2 ^ 32 := by norm_num
  split
  · rw [h32]
    exact Nat.xor_lt_two_pow (by omega) (by norm_num)
  · omega

theorem crc32Byte_lt (c b : Nat) (h : c < 4294967296) : crc32Byte c b < 4294967296 := by
  unfold crc32Byte
  have h0 : c ^^^ b % 256 < 4294967296 := by
    have h32 : (4294967296 : Nat) = 2 ^ 32 := by norm_num
    rw [h32]
    exact Nat.xor_lt_two_pow (by omega) (by omega)
  exact crc32Step_lt _ (crc32Step_lt _ (crc32Step_lt _ (crc32Step_lt _
    (crc32Step_lt _ (crc32Step_lt _ (crc32Step_lt _ (crc32Step_lt _ h0)))))))

theorem crc32_foldl_lt (l : List Nat) (c : Nat) (h : c < 4294967296) :
    l.foldl crc32Byte c < 4294967296 := by
  induction l generalizing c with
  | nil => simpa using h
  | cons a t ih => exact ih _ (crc32Byte_lt c a h)

theorem crc32_lt (l : List Nat) : crc32 l < 4294967296 := by
  unfold crc32
  have h32 : (4294967296 : Nat) = 2 ^ 32 := by norm_num
  rw [h32]
  exact Nat.xor_lt_two_pow (h32 ▸ crc32_foldl_lt l _ (by norm_num)) (by norm_num)

theorem replicate_getD (n a i d : Nat) (h : i < n) :
    (List.replicate n a).getD i d = a := by
  induction n generalizing i with
  | zero => omega
  | succ m ih =>
    cases i with
    | zero => rfl
    | succ j => simpa [List.replicate_succ] using ih j (by omega)

theorem pageSlice_congr (f g : Nat → Nat) (start cnt : Nat)
    (h : ∀ k, k < cnt → f (start + k) = g (start + k)) :
    pageSlice f start cnt = pageSlice g start cnt := by
  unfold pageSlice
  apply List.map_congr_left
  intro k hk
  exact h k (List.mem_range.mp hk)

theorem pageSlice_const (f : Nat → Nat) (start cnt a : Nat)
    (h : ∀ k, k < cnt → f (start + k) = a) :
    pageSlice f start cnt = List.replicate cnt a := by
  unfold pageSlice
  rw [List.eq_replicate_iff]
  refine ⟨by simp, ?_⟩
  intro b hb
  rcases List.mem_map.mp hb with ⟨k, hk, hfk⟩
  rw [← hfk]
  exact h k (List.mem_range.mp hk)

theorem appendLoop_len_zero (record : List Nat) (fuel offset recType : Nat) (s : Segment) :
    appendLoop record fuel offset 0 recType s = s := by
  cases fuel <;> simp [appendLoop]

theorem appendLoop_succ (record : List Nat) (fuel offset length recType : Nat)
    (s : Segment) (h : length ≠ 0) :
    appendLoop record (fuel + 1) offset length recType s =
      appendLoop record fuel
        (offset + segChunkSize length (segAfterGuard s).pageAllocated)
        (length - segChunkSize length (segAfterGuard s).pageAllocated)
        (segChunkType recType
          (segChunkSize length (segAfterGuard s).pageAllocated == length))
        (appendChunk (segAfterGuard s)
          (segChunkType recType
            (segChunkSize length (segAfterGuard s).pageAllocated == length))
          (segChunkSize length (segAfterGuard s).pageAllocated)
          ((record.drop offset).take
            (segChunkSize length (segAfterGuard s).pageAllocated))) := by
  simp only [appendLoop]
  rw [if_neg h]

/-- Segment capacity used in the lost-record scenario (any capacity with
room for both records behaves identically). -/
def c3cap : Nat := 16777216

/-- First record of the scenario: 8184 bytes, so its single Full frame
occupies page bytes `[0, 8191)` and leaves exactly one free byte. -/
def c3r1 : List Nat := List.replicate 8184 7

/-- The fresh segment produced by `Segment::create`. -/
def c3s0 : Segment := ⟨1, fun _ => 0, 0, 0, 0, c3cap, ⟨0, fun _ => 0⟩⟩

/-- The page buffer after the frame of the first record (type, length and
data bytes). -/
def c3fb1 : Nat → Nat := frameBuf (fun _ => 0) 0 1 8184 c3r1

/-- The stored checksum of the first record's frame. -/
def c3c1 : Nat := crc32 (pageSlice c3fb1 0 8187)

/-- The page buffer after appending the first record. -/
def c3pg1 : Nat → Nat := write32 c3fb1 8187 c3c1

/-- Segment state after appending the first record: 8191 of 8192 page
bytes allocated. -/
def c3s1 : Segment := ⟨1, c3pg1, 8191, 0, 0, c3cap, ⟨0, fun _ => 0⟩⟩

/-- The file after the page roll triggered by the second append: the full
first page, its last byte the zero padding byte. -/
def c3f1 : SegFile := SegFile.appendSlice ⟨0, fun _ => 0⟩ c3pg1 0 8192

/-- The page buffer after the frame of the second record. -/
def c3fb2 : Nat → Nat := frameBuf (fun _ => 0) 0 1 1 [9]

/-- The stored checksum of the second record's frame. -/
def c3c2 : Nat := crc32 (pageSlice c3fb2 0 4)

/-- The second page buffer after appending the second record. -/
def c3pg2 : Nat → Nat := write32 c3fb2 4 c3c2

/-- Segment state after both appends. -/
def c3s3 : Segment := ⟨1, c3pg2, 8, 0, 8192, c3cap, c3f1⟩

/-- The segment file after the final `flush_page(false)`: 8200 bytes. -/
def c3g : SegFile := SegFile.appendSlice c3f1 c3pg2 0 8

theorem c3_append1 : appendLoop c3r1 8184 0 8184 0 c3s0 = c3s1 := by
  have hg : segAfterGuard c3s0 = c3s0 := by
    unfold segAfterGuard
    rw [if_neg (by norm_num [c3s0, SEGMENT_PAGE_SIZE, RECORD_HEADER_SIZE])]
  have hcz : segChunkSize 8184 c3s0.pageAllocated = 8184 := by
    norm_num [segChunkSize, c3s0, SEGMENT_PAGE_SIZE, RECORD_HEADER_SIZE]
  have htake : (c3r1.drop 0).take 8184 = c3r1 := by
    norm_num [c3r1, List.take_replicate]
  show appendLoop c3r1 (8183 + 1) 0 8184 0 c3s0 = c3s1
  rw [appendLoop_succ _ _ _ _ _ _ (by norm_num), hg, hcz, htake]
  norm_num [appendLoop_len_zero]
  norm_num [appendChunk, segChunkType, c3s0, c3s1, c3pg1, c3fb1, c3c1]

theorem c3_append2 : appendLoop [9] 1 0 1 0 c3s1 = c3s3 := by
  have hg : segAfterGuard c3s1 = ⟨1, fun _ => 0, 0, 0, 8192, c3cap, c3f1⟩ := by
    unfold segAfterGuard
    rw [if_pos (by norm_num [c3s1, SEGMENT_PAGE_SIZE, RECORD_HEADER_SIZE])]
    unfold flushPageSeg
    rw [if_pos (Or.inl rfl)]
    norm_num [c3s1, c3f1, SEGMENT_PAGE_SIZE]
  have hcz : segChunkSize 1
      (Segment.mk 1 (fun _ => 0) 0 0 8192 c3cap c3f1).pageAllocated = 1 := by
    norm_num [segChunkSize, SEGMENT_PAGE_SIZE, RECORD_HEADER_SIZE]
  show appendLoop [9] (0 + 1) 0 1 0 c3s1 = c3s3
  rw [appendLoop_succ _ _ _ _ _ _ (by norm_num), hg, hcz]
  norm_num [appendLoop_len_zero]
  norm_num [appendChunk, segChunkType, c3s3, c3pg2, c3fb2, c3c2]

theorem c3_appendAll : segmentAppendAll c3s0 [c3r1, [9]] = some c3s3 := by
  have hlen : c3r1.length = 8184 := by
    rw [show c3r1 = List.replicate 8184 7 from rfl, List.length_replicate]
  have hsc1 : sufficientCapacity c3s0 8184 = true := by
    norm_num [sufficientCapacity, c3s0, c3cap, SEGMENT_PAGE_SIZE, RECORD_HEADER_SIZE]
  have hsc2 : sufficientCapacity c3s1 1 = true := by
    norm_num [sufficientCapacity, c3s1, c3cap, SEGMENT_PAGE_SIZE, RECORD_HEADER_SIZE]
  simp only [segmentAppendAll, segmentAppend, hlen, List.length_singleton,
    hsc1, hsc2, if_true, c3_append1, c3_append2]

theorem c3_file : (flushPageSeg c3s3 false).file = c3g := by
  unfold flushPageSeg
  rw [if_neg (by norm_num [c3s3, SEGMENT_PAGE_SIZE, RECORD_HEADER_SIZE])]
  norm_num [c3s3, c3g]

theorem c3g_size : c3g.size = 8200 := by
  norm_num [c3g, c3f1, SegFile.appendSlice]

theorem c3g_data_lo (i : Nat) (h : i < 8192) : c3g.data i = c3pg1 i := by
  have h1 : c3f1.size = 8192 := by norm_num [c3f1, SegFile.appendSlice]
  show (SegFile.appendSlice c3f1 c3pg2 0 8).data i = c3pg1 i
  unfold SegFile.appendSlice
  dsimp only
  rw [h1, if_pos (by omega : i < 8192)]
  show (SegFile.appendSlice ⟨0, fun _ => 0⟩ c3pg1 0 8192).data i = c3pg1 i
  unfold SegFile.appendSlice
  dsimp only
  norm_num

theorem c3r1_len : c3r1.length = 8184 := by
  rw [show c3r1 = List.replicate 8184 7 from rfl, List.length_replicate]

theorem c3pg1_at0 : c3pg1 0 = 1 := by
  unfold c3pg1 c3fb1 frameBuf
  rw [write32_ne _ _ _ _ (Or.inl (by norm_num)),
    writeBytes_ne _ _ _ _ (Or.inl (by norm_num)),
    write16_ne _ _ _ _ (by norm_num) (by norm_num), write8_same]

theorem c3pg1_len16 : read16 c3pg1 1 = 8184 := by
  unfold c3pg1 c3fb1 frameBuf read16
  rw [write32_ne _ _ _ _ (Or.inl (by norm_num)),
    write32_ne _ _ _ _ (Or.inl (by norm_num)),
    writeBytes_ne _ _ _ _ (Or.inl (by norm_num)),
    writeBytes_ne _ _ _ _ (Or.inl (by norm_num))]
  unfold write16 write8
  norm_num

theorem c3pg1_data (k : Nat) (h : k < 8184) : c3pg1 (3 + k) = 7 := by
  unfold c3pg1 c3fb1 frameBuf
  rw [write32_ne _ _ _ _ (Or.inl (by omega)),
    writeBytes_in _ _ _ _ (by omega) (by rw [c3r1_len]; omega)]
  rw [show 3 + k - (0 + 3) = k from by omega]
  exact replicate_getD _ _ _ _ h

theorem c3pg1_crc : read32 c3pg1 8187 = c3c1 := by
  unfold c3pg1
  exact read32_write32_same _ _ _ (crc32_lt _)

theorem c3pg1_pad : c3pg1 8191 = 0 := by
  unfold c3pg1 c3fb1 frameBuf
  rw [write32_ne _ _ _ _ (Or.inr (by norm_num)),
    writeBytes_ne _ _ _ _ (Or.inr (by rw [c3r1_len]; norm_num)),
    write16_ne _ _ _ _ (by norm_num) (by norm_num),
    write8_ne _ _ _ _ (by norm_num)]

theorem c3_crc_slice : fileSlice c3g 0 8187 = pageSlice c3fb1 0 8187 := by
  unfold fileSlice
  apply pageSlice_congr
  intro k hk
  rw [c3g_data_lo (0 + k) (by omega)]
  unfold c3pg1
  rw [write32_ne _ _ _ _ (Or.inl (by omega))]

theorem c3_payload : fileSlice c3g 3 8184 = c3r1 := by
  unfold fileSlice
  rw [show c3r1 = List.replicate 8184 7 from rfl]
  apply pageSlice_const
  intro k hk
  rw [c3g_data_lo (3 + k) (by omega)]
  exact c3pg1_data k hk

theorem readLoop_succ (f : SegFile) (offset fuel p : Nat) (buffer : List Nat)
    (started : Bool) :
    readLoop f offset (fuel + 1) p buffer started =
      (if f.size ≤ p + RECORD_HEADER_SIZE then Except.error SegError.dataCorrupted
       else if f.data p = 0 then
         if f.size ≤ p + 1 + (SEGMENT_PAGE_SIZE - (p + 1) % SEGMENT_PAGE_SIZE) +
             RECORD_HEADER_SIZE ∧ started = false then
           Except.ok none
         else
           readLoop f offset fuel
             (p + 1 + (SEGMENT_PAGE_SIZE - (p + 1) % SEGMENT_PAGE_SIZE)) buffer started
       else if 5 ≤ f.data p then Except.error SegError.dataCorrupted
       else
         if p + 3 + read16 f.data (p + 1) + 4 ≤ f.size then
           if crc32 (fileSlice f p (3 + read16 f.data (p + 1))) ≠
               read32 f.data (p + 3 + read16 f.data (p + 1)) then
             Except.error SegError.dataCorrupted
           else
             if f.data p = 1 ∨ f.data p = 4 then
               Except.ok (some (buffer ++ fileSlice f (p + 3) (read16 f.data (p + 1)),
                 p + 3 + read16 f.data (p + 1) + 4 - offset))
             else
               readLoop f offset fuel (p + 3 + read16 f.data (p + 1) + 4)
                 (buffer ++ fileSlice f (p + 3) (read16 f.data (p + 1))) true
         else Except.error SegError.dataCorrupted) := rfl

theorem readRecords_succ (f : SegFile) (fuel pos : Nat) :
    readRecords f (fuel + 1) pos =
      (match readRecord f pos with
       | Except.error e => Except.error e
       | Except.ok none => Except.ok []
       | Except.ok (some (buf, consumed)) =>
         match readRecords f fuel (pos + consumed) with
         | Except.error e => Except.error e
         | Except.ok rest => Except.ok (buf :: rest)) := rfl

theorem read16_congr (f g : Nat → Nat) (off : Nat)
    (h0 : f off = g off) (h1 : f (off + 1) = g (off + 1)) :
    read16 f off = read16 g off := by
  unfold read16
  rw [h0, h1]

theorem read32_congr (f g : Nat → Nat) (off : Nat)
    (h0 : f off = g off) (h1 : f (off + 1) = g (off + 1))
    (h2 : f (off + 2) = g (off + 2)) (h3 : f (off + 3) = g (off + 3)) :
    read32 f off = read32 g off := by
  unfold read32
  rw [h0, h1, h2, h3]

theorem c3_read1 : readRecord c3g 0 = Except.ok (some (c3r1, 8191)) := by
  have hd0 : c3g.data 0 = 1 := (c3g_data_lo 0 (by norm_num)).trans c3pg1_at0
  have h16 : read16 c3g.data 1 = 8184 :=
    (read16_congr _ _ _ (c3g_data_lo 1 (by norm_num))
      (c3g_data_lo 2 (by norm_num))).trans c3pg1_len16
  have hcf : read32 c3g.data 8187 = c3c1 :=
    (read32_congr _ _ _ (c3g_data_lo 8187 (by norm_num))
      (c3g_data_lo 8188 (by norm_num)) (c3g_data_lo 8189 (by norm_num))
      (c3g_data_lo 8190 (by norm_num))).trans c3pg1_crc
  have hcc : crc32 (fileSlice c3g 0 8187) = c3c1 := by
    rw [c3_crc_slice]; rfl
  unfold readRecord
  rw [c3g_size, if_neg (by norm_num), if_neg (by norm_num [RECORD_HEADER_SIZE])]
  show readLoop c3g 0 (8199 + 1) 0 [] false = Except.ok (some (c3r1, 8191))
  rw [readLoop_succ]
  rw [c3g_size, hd0]
  rw [if_neg (by norm_num [RECORD_HEADER_SIZE] :
    ¬ (8200 ≤ 0 + RECORD_HEADER_SIZE))]
  rw [if_neg (by norm_num : ¬ ((1 : Nat) = 0))]
  rw [if_neg (by norm_num : ¬ ((5 : Nat) ≤ 1))]
  rw [show (0 : Nat) + 1 = 1 from rfl]
  rw [h16]
  rw [if_pos (by norm_num : (0 : Nat) + 3 + 8184 + 4 ≤ 8200)]
  rw [show (0 : Nat) + 3 + 8184 = 8187 from by norm_num]
  rw [hcc, hcf]
  rw [if_neg (by simp : ¬ (c3c1 ≠ c3c1))]
  rw [if_pos (Or.inl rfl : (1 : Nat) = 1 ∨ (1 : Nat) = 4)]
  rw [show (0 : Nat) + 3 = 3 from rfl, c3_payload]
  rw [List.nil_append]

theorem c3_read2 : readRecord c3g 8191 = Except.ok none := by
  have hd : c3g.data 8191 = 0 := by
    rw [c3g_data_lo 8191 (by norm_num)]; exact c3pg1_pad
  unfold readRecord
  rw [c3g_size, if_neg (by norm_num), if_neg (by norm_num [RECORD_HEADER_SIZE])]
  show readLoop c3g 8191 (8199 + 1) 8191 [] false = Except.ok none
  rw [readLoop_succ]
  rw [c3g_size, hd]
  rw [if_neg (by norm_num [RECORD_HEADER_SIZE] :
    ¬ (8200 ≤ 8191 + RECORD_HEADER_SIZE))]
  rw [if_pos (rfl : (0 : Nat) = 0)]
  rw [if_pos (⟨by norm_num [SEGMENT_PAGE_SIZE, RECORD_HEADER_SIZE], rfl⟩ :
    8200 ≤ 8191 + 1 + (SEGMENT_PAGE_SIZE - (8191 + 1) % SEGMENT_PAGE_SIZE) +
      RECORD_HEADER_SIZE ∧ false = false)]

theorem c3_records : readRecords c3g 3 0 = Except.ok [c3r1] := by
  have h2 : readRecords c3g 2 8191 = Except.ok [] := by
    show readRecords c3g (1 + 1) 8191 = Except.ok []
    rw [readRecords_succ, c3_read2]
  show readRecords c3g (2 + 1) 0 = Except.ok [c3r1]
  rw [readRecords_succ, c3_read1]
  dsimp only
  rw [show (0 : Nat) + 8191 = 8191 from by norm_num, h2]

/-- C3: the claimed WAL round trip (append a sequence of records through
a segment, flush, iterate the reader from the first record's position,
get the same records back) fails on the code: after an 8184-byte record,
whose Full frame fills page bytes `[0, 8191)` and leaves exactly one
padding byte, a second record is appended on the next page and flushed
correctly, but `read_record`'s padding skip advances `p` by a whole extra
page (at the page boundary `p % SEGMENT_PAGE_SIZE` is `0` after the `p += 1`
for the type byte), so iteration stops and returns only the first record. -/
theorem wal_segment_roundtrip_lost_record :
    segmentCreate 1 c3cap = some c3s0 ∧
    segmentAppendAll c3s0 [c3r1, [9]] = some c3s3 ∧
    readRecords (flushPageSeg c3s3 false).file 3 0 = Except.ok [c3r1] ∧
    [c3r1] ≠ [c3r1, [9]] := by
  refine ⟨?_, c3_appendAll, ?_, by simp⟩
  · norm_num [segmentCreate, c3cap, RECORD_HEADER_SIZE, c3s0]
  · rw [c3_file]
    exact c3_records

end SuziQ
